import Mathlib

/-!
Verification development for the ZCAgent cockpit-assistant pipeline.

This file gives a shallow embedding, in Lean 4, of the core orchestration
pipeline of the repository: the static domain model (`src/cockpit/domains.py`),
the keyword intent classifier (`src/cockpit/intent_parser.py`), the safety
gate (`src/cockpit/safety_checker.py`), the task graph and its wave
computation (`src/task/task_graph.py`), the conflict-cancelling scheduler
(`src/task/task_scheduler.py`), the task executor (`src/task/task_executor.py`),
the plan-execute orchestrator (`src/agent/plan_execute_agent.py`) and the
top-level dispatcher (`src/agent/dispatcher.py`).

Modelling conventions:
* Python strings become Lean `String`s; the substring test `a in b` becomes
  `strContains b a` (infix test on the underlying character lists).
* Python floats on the confidence/score paths become `ℚ` (the arithmetic on
  these paths is exact in the ranges exercised: ratios of small naturals).
* Fallible collaborators (the LLM client, the memory manager) are modelled as
  oracles returning `Except String α`: a `.error` value models a raised
  exception, mirroring the `try/except` structure of the Python code.
* Wall-clock timestamp fields (`created_at`, `started_at`, `completed_at`)
  are omitted: no control path of the embedded code reads them.
* `uuid`-based task-id generation is modelled by an id oracle
  `mkId : Nat → String` giving the id of the i-th task created in a batch.
* Slot extraction (`IntentParser._extract_slots`) is regex-heavy and its
  output is never inspected by any embedded control path, so the embedding is
  parameterised by an arbitrary slot-extraction function `extractSlots`.
-/

namespace ZCAgent

attribute [local semireducible] Rat.mul Rat.inv Rat.add Rat.sub

/-- Substring containment, modelling Python's `sub in s` on strings:
the character sequence of `sub` occurs contiguously inside that of `s`. -/
def strContains (s sub : String) : Bool :=
  decide (sub.data <:+: s.data)

/-- Cockpit function domains, from `src/cockpit/domains.py` (`DomainType`). -/
inductive DomainType where
  | navigation
  | phone
  | music
  | vehicle_setting
  | safety
  | general
deriving DecidableEq, Repr

/-- String value of a domain, mirroring the Python enum values. -/
def DomainType.value : DomainType → String
  | .navigation => "navigation"
  | .phone => "phone"
  | .music => "music"
  | .vehicle_setting => "vehicle_setting"
  | .safety => "safety"
  | .general => "general"

/-- Intent types, from `src/cockpit/domains.py` (`IntentType`). -/
inductive IntentType where
  | navigate_to
  | search_poi
  | cancel_navigation
  | make_call
  | answer_call
  | reject_call
  | send_message
  | play_music
  | pause_music
  | next_track
  | adjust_volume
  | set_temperature
  | open_window
  | close_window
  | set_seat
  | set_light
  | emergency_call
  | adas_control
  | fatigue_alert
  | query
  | chat
  | unknown
deriving DecidableEq, Repr

/-- String value of an intent type, mirroring the Python enum values. -/
def IntentType.value : IntentType → String
  | .navigate_to => "navigate_to"
  | .search_poi => "search_poi"
  | .cancel_navigation => "cancel_navigation"
  | .make_call => "make_call"
  | .answer_call => "answer_call"
  | .reject_call => "reject_call"
  | .send_message => "send_message"
  | .play_music => "play_music"
  | .pause_music => "pause_music"
  | .next_track => "next_track"
  | .adjust_volume => "adjust_volume"
  | .set_temperature => "set_temperature"
  | .open_window => "open_window"
  | .close_window => "close_window"
  | .set_seat => "set_seat"
  | .set_light => "set_light"
  | .emergency_call => "emergency_call"
  | .adas_control => "adas_control"
  | .fatigue_alert => "fatigue_alert"
  | .query => "query"
  | .chat => "chat"
  | .unknown => "unknown"

/-- All intent types, in the declaration order of the Python enum. -/
def IntentType.all : List IntentType :=
  [.navigate_to, .search_poi, .cancel_navigation,
   .make_call, .answer_call, .reject_call, .send_message,
   .play_music, .pause_music, .next_track, .adjust_volume,
   .set_temperature, .open_window, .close_window, .set_seat, .set_light,
   .emergency_call, .adas_control, .fatigue_alert,
   .query, .chat, .unknown]

/-- The intent→domain map `INTENT_DOMAIN_MAP` of `src/cockpit/domains.py`.
The Python dict covers every `IntentType` member, so it is a total map. -/
def INTENT_DOMAIN_MAP : IntentType → DomainType
  | .navigate_to => .navigation
  | .search_poi => .navigation
  | .cancel_navigation => .navigation
  | .make_call => .phone
  | .answer_call => .phone
  | .reject_call => .phone
  | .send_message => .phone
  | .play_music => .music
  | .pause_music => .music
  | .next_track => .music
  | .adjust_volume => .music
  | .set_temperature => .vehicle_setting
  | .open_window => .vehicle_setting
  | .close_window => .vehicle_setting
  | .set_seat => .vehicle_setting
  | .set_light => .vehicle_setting
  | .emergency_call => .safety
  | .adas_control => .safety
  | .fatigue_alert => .safety
  | .query => .general
  | .chat => .general
  | .unknown => .general

/-- A parsed user intent, from `src/cockpit/domains.py` (`ParsedIntent`).
The Python dataclass derives `domain` from `INTENT_DOMAIN_MAP` when it is
constructed with `domain=None`, but also admits an explicitly supplied
domain; the embedding therefore carries the domain as an independent field. -/
structure ParsedIntent where
  intent_type : IntentType
  domain : DomainType
  confidence : ℚ := 0
  slots : List (String × String) := []
  raw_text : String := ""
deriving DecidableEq, Repr

/-- Construct a `ParsedIntent` with the domain derived from the static map,
mirroring `ParsedIntent.__post_init__` when `domain is None`. -/
def ParsedIntent.mk' (it : IntentType) (confidence : ℚ)
    (slots : List (String × String)) (raw : String) : ParsedIntent :=
  { intent_type := it
    domain := INTENT_DOMAIN_MAP it
    confidence := confidence
    slots := slots
    raw_text := raw }

/-- Result of a safety check, from `src/cockpit/safety_checker.py`
(`SafetyCheckResult`). -/
structure SafetyCheckResult where
  is_safe : Bool
  requires_confirmation : Bool := false
  blocked_reason : String := ""
  warnings : List String := []
deriving DecidableEq, Repr

/-- Safety rule configuration: the two action-name sets loaded by
`SafetyChecker.__init__` from the `safety` config section. -/
structure SafetyChecker where
  blocked_while_driving : List String
  require_confirmation : List String
deriving DecidableEq, Repr

/-- The advisory warning appended for navigation intents at highway speed
(`safety_checker.py` line 97). -/
def highwayNavAdvisory : String := "高速行驶中，建议使用语音交互完成导航设置"

/-- Blocked reason produced by `SafetyChecker.check` (line 80). -/
def blockedReasonFor (action : String) : String :=
  "操作 '" ++ action ++ "' 在行驶中被禁止"

/-- Confirmation warning produced by `SafetyChecker.check` (line 92). -/
def confirmWarningFor (action : String) : String :=
  "操作 '" ++ action ++ "' 需要确认"

/-- Shallow embedding of `SafetyChecker.check` (`src/cockpit/safety_checker.py`,
lines 49–99). Rule order follows the source: safety domain first, then the
blocked set, then the confirmation set (with the `open_window_highway`
remapping), then the highway-navigation advisory on the fall-through pass. -/
def SafetyChecker.check (cfg : SafetyChecker) (intent : ParsedIntent)
    (driving_state : String) : SafetyCheckResult :=
  if intent.domain = DomainType.safety then
    if intent.intent_type = IntentType.emergency_call then
      { is_safe := true
        requires_confirmation := true
        warnings := ["紧急呼叫将立即执行"] }
    else
      { is_safe := true }
  else if driving_state = "driving" ∨ driving_state = "highway" then
    if intent.intent_type.value ∈ cfg.blocked_while_driving then
      { is_safe := false
        blocked_reason := blockedReasonFor intent.intent_type.value }
    else if (if driving_state = "highway" ∧ intent.intent_type = IntentType.open_window
        then "open_window_highway" else intent.intent_type.value) ∈
        cfg.require_confirmation then
      { is_safe := true
        requires_confirmation := true
        warnings := [confirmWarningFor intent.intent_type.value] }
    else
      { is_safe := true
        warnings :=
          if intent.domain = DomainType.navigation ∧ driving_state = "highway"
          then [highwayNavAdvisory] else [] }
  else
    { is_safe := true }


/-- Result dict returned by a task handler or by `TaskExecutor.execute`
(`src/task/task_executor.py`). Only the keys the pipeline reads downstream
are modelled: `status`, `message` (absent ≡ `""` via `.get("message","")`)
and `error`. -/
structure ExecResult where
  status : String
  message : String := ""
  error : Option String := none
deriving DecidableEq, Repr

/-- Task status, from `src/task/task_graph.py` (`TaskStatus`). -/
inductive TaskStatus where
  | pending
  | ready
  | running
  | completed
  | failed
  | cancelled
deriving DecidableEq, Repr

/-- A task node, from `src/task/task_graph.py` (`Task`). The wall-clock
timestamp fields of the Python dataclass are omitted: no embedded control
path reads them. -/
structure Task where
  task_id : String
  name : String := ""
  domain : String := ""
  action : String := ""
  params : List (String × String) := []
  priority : Int := 50
  status : TaskStatus := .pending
  dependencies : List String := []
  result : Option ExecResult := none
  error : Option String := none
deriving DecidableEq, Repr

/-- Mirror of `Task.is_ready`: all dependencies are in the completed set. -/
def Task.is_ready (t : Task) (completed : List String) : Bool :=
  t.dependencies.all (fun d => decide (d ∈ completed))

/-- Mirror of `Task.mark_completed`. -/
def Task.mark_completed (t : Task) (result : Option ExecResult) : Task :=
  { t with status := .completed, result := result }

/-- Mirror of `Task.mark_failed`. -/
def Task.mark_failed (t : Task) (error : String) : Task :=
  { t with status := .failed, error := some error }

/-- Mirror of `Task.mark_cancelled`. -/
def Task.mark_cancelled (t : Task) : Task :=
  { t with status := .cancelled }

/-- A task graph, from `src/task/task_graph.py` (`TaskGraph`): the id→task
map `_tasks` (an insertion-ordered Python dict, embedded as a list with
unique ids) and the completed-id set `_completed`. -/
structure TaskGraph where
  tasks : List Task := []
  completedIds : List String := []
deriving Repr

/-- Look up a task by id, mirroring `TaskGraph.get_task`. -/
def TaskGraph.findTask (g : List Task) (tid : String) : Option Task :=
  g.find? (fun t => t.task_id == tid)

/-- Insert-or-replace into the id→task map, mirroring the Python dict
assignment in `TaskGraph.add_task`: an existing key keeps its position and
gets the new value; a new key is appended. -/
def TaskGraph.add_task (G : TaskGraph) (t : Task) : TaskGraph :=
  if G.tasks.any (fun u => u.task_id == t.task_id) then
    { G with tasks := G.tasks.map (fun u => if u.task_id = t.task_id then t else u) }
  else
    { G with tasks := G.tasks ++ [t] }

/-- Mirror of `TaskGraph.add_dependency`: a no-op unless both ids are
present; the edge is appended only if not already recorded. -/
def TaskGraph.add_dependency (G : TaskGraph) (task_id depends_on : String) : TaskGraph :=
  if (G.tasks.any (fun u => u.task_id == task_id)) ∧
      (G.tasks.any (fun u => u.task_id == depends_on)) then
    { G with tasks := G.tasks.map (fun u =>
        if u.task_id = task_id ∧ depends_on ∉ u.dependencies then
          { u with dependencies := u.dependencies ++ [depends_on] }
        else u) }
  else G

/-- Mirror of `TaskGraph.complete_task`. -/
def TaskGraph.complete_task (G : TaskGraph) (task_id : String)
    (result : Option ExecResult) : TaskGraph :=
  if G.tasks.any (fun u => u.task_id == task_id) then
    { tasks := G.tasks.map (fun u =>
        if u.task_id = task_id then u.mark_completed result else u)
      completedIds := G.completedIds ++ [task_id] }
  else G

/-- Per-task step of `TaskGraph.fail_task`: the failed task is marked
failed with the error; a task listing it as a direct dependency and still
in pending/ready status is cancelled; every other task is unchanged. -/
def TaskGraph.failStep (task_id error : String) (u : Task) : Task :=
  if u.task_id = task_id then u.mark_failed error
  else if task_id ∈ u.dependencies ∧ (u.status = .pending ∨ u.status = .ready) then
    u.mark_cancelled
  else u

/-- Mirror of `TaskGraph.fail_task` (lines 109–118). -/
def TaskGraph.fail_task (G : TaskGraph) (task_id : String) (error : String) : TaskGraph :=
  if G.tasks.any (fun u => u.task_id == task_id) then
    { G with tasks := G.tasks.map (TaskGraph.failStep task_id error) }
  else G

/-- Dependencies of a task id in the graph (empty for an absent id). -/
def TaskGraph.depsOf (g : List Task) (tid : String) : List String :=
  ((TaskGraph.findTask g tid).map Task.dependencies).getD []

/-- Priority of a task id in the graph (0 for an absent id). -/
def TaskGraph.prioOf (g : List Task) (tid : String) : Int :=
  ((TaskGraph.findTask g tid).map Task.priority).getD 0

/-- Readiness test used by the wave loop of `get_execution_order`:
all dependencies of the task are in the accumulated completed set. -/
def TaskGraph.waveReady (g : List Task) (completed : List String) (tid : String) : Bool :=
  (TaskGraph.depsOf g tid).all (fun d => decide (d ∈ completed))

/-- Wave sorting: `sorted(wave, key=priority, reverse=True)`. -/
def TaskGraph.sortWave (g : List Task) (wave : List String) : List String :=
  List.insertionSort (fun a b => TaskGraph.prioOf g b ≤ TaskGraph.prioOf g a) wave

/-- The wave loop of `TaskGraph.get_execution_order` (lines 146–157):
collect every remaining task whose dependencies are in the completed set,
emit it as a wave (sorted by priority descending), move it to the
completed set, and repeat; stop when a pass yields no wave. -/
def TaskGraph.execWavesAux (g : List Task) (completed remaining : List String) :
    List (List String) :=
  let wave := remaining.filter (TaskGraph.waveReady g completed)
  if h : wave = [] then []
  else
    TaskGraph.sortWave g wave ::
      TaskGraph.execWavesAux g (completed ++ wave)
        (remaining.filter (fun tid => decide (tid ∉ wave)))
termination_by remaining.length
decreasing_by
  rcases List.exists_mem_of_ne_nil wave h with ⟨x, hxw⟩
  refine List.length_filter_lt_length_iff_exists.mpr ⟨x, List.mem_of_mem_filter hxw, ?_⟩
  simp only [decide_eq_true_eq]
  exact not_not_intro hxw

/-- Mirror of `TaskGraph.get_execution_order` (lines 135–158): waves are
computed over the tasks that are not cancelled and not failed, starting
from an empty completed set. -/
def TaskGraph.get_execution_order (G : TaskGraph) : List (List String) :=
  let remaining := (G.tasks.filter (fun t =>
    decide (¬(t.status = .cancelled ∨ t.status = .failed)))).map Task.task_id
  TaskGraph.execWavesAux G.tasks [] remaining

/-- Scheduler configuration, from `src/task/task_scheduler.py`
(`SchedulerConfig`), with the default priority values. -/
structure SchedulerConfig where
  max_parallel_tasks : Int := 5
  safety_priority : Int := 100
  navigation_priority : Int := 80
  phone_priority : Int := 70
  vehicle_setting_priority : Int := 60
  music_priority : Int := 50
deriving DecidableEq, Repr

/-- Mirror of `SchedulerConfig.get_domain_priority`: unmapped domains fall
back to `TaskPriority.NORMAL.value` (50). -/
def SchedulerConfig.get_domain_priority (c : SchedulerConfig) (domain : String) : Int :=
  if domain = "safety" then c.safety_priority
  else if domain = "navigation" then c.navigation_priority
  else if domain = "phone" then c.phone_priority
  else if domain = "vehicle_setting" then c.vehicle_setting_priority
  else if domain = "music" then c.music_priority
  else 50

/-- Scheduler state, from `src/task/task_scheduler.py` (`TaskScheduler`):
a config, a task graph, and the running-task id set. -/
structure TaskScheduler where
  config : SchedulerConfig := {}
  graph : TaskGraph := {}
  running : List String := []
deriving Repr

/-- The per-existing-task cancellation condition of
`TaskScheduler._handle_conflicts`: same domain as the new task, status
pending/ready/running, and a different task id. -/
def conflictCancels (new_task t : Task) : Prop :=
  t.domain = new_task.domain ∧
    (t.status = .pending ∨ t.status = .ready ∨ t.status = .running) ∧
    t.task_id ≠ new_task.task_id

instance (new_task t : Task) : Decidable (conflictCancels new_task t) := by
  unfold conflictCancels; infer_instance

/-- Mirror of `TaskScheduler._handle_conflicts` (lines 105–120): if the new
task is in an exclusivity domain (navigation or music), cancel every
conflicting task and discard it from the running set. -/
def TaskScheduler._handle_conflicts (s : TaskScheduler) (new_task : Task) : TaskScheduler :=
  if new_task.domain = "navigation" ∨ new_task.domain = "music" then
    { s with
      graph := { s.graph with tasks := s.graph.tasks.map (fun t =>
        if conflictCancels new_task t then t.mark_cancelled else t) }
      running := s.running.filter (fun rid =>
        !(s.graph.tasks.any (fun t => decide (conflictCancels new_task t) && (t.task_id == rid)))) }
  else s

/-- Mirror of `TaskScheduler.submit_task` (lines 53–68): assign the
domain-based priority when the task still carries the default (50), resolve
conflicts, then add the task to the graph. -/
def TaskScheduler.submit_task (s : TaskScheduler) (task : Task) : TaskScheduler :=
  let task := if task.priority = 50
    then { task with priority := s.config.get_domain_priority task.domain }
    else task
  let s := s._handle_conflicts task
  { s with graph := s.graph.add_task task }

/-- The default domain→priority table `DOMAIN_PRIORITY` of
`src/task/task_executor.py`. -/
def DOMAIN_PRIORITY : DomainType → Int
  | .safety => 100
  | .navigation => 80
  | .phone => 70
  | .vehicle_setting => 60
  | .music => 50
  | .general => 30

/-- Mirror of `TaskExecutor.intent_to_task`: the unique id is supplied by
the id oracle `mkId` applied to the index of the task in its batch
(modelling `uuid.uuid4()`), the name is `domain:action`, slots become
params, and the priority comes from the domain table. -/
def TaskExecutor.intent_to_task (mkId : Nat → String) (i : Nat)
    (intent : ParsedIntent) : Task :=
  { task_id := mkId i
    name := intent.domain.value ++ ":" ++ intent.intent_type.value
    domain := intent.domain.value
    action := intent.intent_type.value
    params := intent.slots
    priority := DOMAIN_PRIORITY intent.domain }

/-- A task-handler registry (`TaskExecutor._handlers`): an action name maps
to an optional handler; a handler may raise (`.error e` models a Python
exception with text `e`). -/
def Handlers : Type := String → Option (Task → Except String ExecResult)

/-- Mirror of `TaskExecutor._handle_navigation`. -/
def handleNavigation (t : Task) : ExecResult :=
  { status := "success"
    message := "导航到: " ++ (((t.params.find? (fun p => p.1 == "destination")).map
      Prod.snd).getD "未指定目的地") }

/-- Mirror of `TaskExecutor._handle_phone`. -/
def handlePhone (t : Task) : ExecResult :=
  { status := "success"
    message := "电话操作: " ++ t.action ++ " -> " ++
      (((t.params.find? (fun p => p.1 == "contact")).map Prod.snd).getD "未知联系人") }

/-- Mirror of `TaskExecutor._handle_music`. -/
def handleMusic (t : Task) : ExecResult :=
  let q := ((t.params.find? (fun p => p.1 == "query")).map Prod.snd).getD ""
  { status := "success"
    message := "音乐操作: " ++ t.action ++ (if q ≠ "" then " -> " ++ q else "") }

/-- Mirror of `TaskExecutor._handle_vehicle`. -/
def handleVehicle (t : Task) : ExecResult :=
  { status := "success", message := "车辆设置: " ++ t.action }

/-- Mirror of `TaskExecutor._handle_safety`. -/
def handleSafety (t : Task) : ExecResult :=
  { status := "success", message := "安全操作: " ++ t.action }

/-- The default registry `TaskExecutor._register_default_handlers`. -/
def defaultHandlers : Handlers := fun action =>
  if action = "navigate_to" ∨ action = "search_poi" then
    some (fun t => .ok (handleNavigation t))
  else if action = "make_call" ∨ action = "answer_call" ∨ action = "reject_call" then
    some (fun t => .ok (handlePhone t))
  else if action = "play_music" ∨ action = "pause_music" ∨ action = "next_track" then
    some (fun t => .ok (handleMusic t))
  else if action = "adjust_volume" ∨ action = "set_temperature" ∨
      action = "open_window" ∨ action = "close_window" then
    some (fun t => .ok (handleVehicle t))
  else if action = "emergency_call" ∨ action = "adas_control" then
    some (fun t => .ok (handleSafety t))
  else none

/-- Mirror of `TaskExecutor.execute`: look up a handler by action; an
unmatched action yields the generic no-handler success result. -/
def TaskExecutor.execute (handlers : Handlers) (t : Task) : Except String ExecResult :=
  match handlers t.action with
  | some h => h t
  | none => .ok { status := "success"
                  message := "Task '" ++ t.name ++ "' executed (no specific handler)" }

/-- The keyword table `INTENT_KEYWORDS` of `src/cockpit/intent_parser.py`,
in declaration order. -/
def INTENT_KEYWORDS : List (IntentType × List String) :=
  [(.navigate_to, ["导航到", "导航去", "去往", "navigate to", "go to", "带我去"]),
   (.search_poi, ["搜索", "查找", "附近的", "找一下", "search", "find nearby"]),
   (.cancel_navigation, ["取消导航", "停止导航", "cancel navigation"]),
   (.make_call, ["打电话", "呼叫", "拨打", "call", "dial"]),
   (.answer_call, ["接电话", "接听", "answer"]),
   (.reject_call, ["拒接", "挂断", "reject", "hang up"]),
   (.send_message, ["发消息", "发短信", "发送", "send message", "text"]),
   (.play_music, ["播放音乐", "播放歌曲", "放一首", "play music", "play song", "来一首"]),
   (.pause_music, ["暂停音乐", "暂停播放", "停止播放", "pause music", "stop music"]),
   (.next_track, ["下一首", "切歌", "换一首", "next song", "next track", "skip"]),
   (.adjust_volume, ["音量", "声音大", "声音小", "volume", "调高音量", "调低音量"]),
   (.set_temperature, ["温度", "空调", "制冷", "制热", "temperature", "AC", "暖风"]),
   (.open_window, ["开窗", "打开车窗", "open window"]),
   (.close_window, ["关窗", "关闭车窗", "close window"]),
   (.set_seat, ["座椅", "seat", "座位加热", "座位通风"]),
   (.set_light, ["车灯", "大灯", "氛围灯", "light", "灯光"]),
   (.emergency_call, ["紧急呼叫", "SOS", "emergency", "报警", "急救"]),
   (.adas_control, ["自动驾驶", "辅助驾驶", "ADAS", "autopilot", "车道保持"]),
   (.fatigue_alert, ["疲劳", "困了", "fatigue", "tired", "休息提醒"])]

/-- The keyword table flattened to (intent, keyword) pairs in iteration
order of the Python nested loops. -/
def kwPairs : List (IntentType × String) :=
  (INTENT_KEYWORDS.map (fun p => p.2.map (fun k => (p.1, k)))).flatten

/-- Python's `str.lower()`, modelled as per-character lowering of the
underlying character sequence (`Char.toLower` lowers the cased letters the
keyword table exercises; CJK characters are unaffected, as in Python). -/
def strLower (s : String) : String :=
  String.mk (s.data.map Char.toLower)

/-- Case-insensitive keyword test of `_keyword_match`:
`keyword.lower() in text.lower()`. -/
def kwMatches (text keyword : String) : Bool :=
  strContains (strLower text) (strLower keyword)

/-- Score of a matched keyword: `len(keyword) / max(len(text), 1)`. -/
def kwScore (textLen : Nat) (keyword : String) : ℚ :=
  (keyword.length : ℚ) / (max textLen 1 : ℚ)

/-- One step of the best-match loop of `_keyword_match`: a matching keyword
replaces the incumbent only when its score is strictly greater. -/
def kwStep (text : String) (acc : IntentType × ℚ) (p : IntentType × String) :
    IntentType × ℚ :=
  if kwMatches text p.2 ∧ kwScore text.length p.2 > acc.2
  then (p.1, kwScore text.length p.2) else acc

/-- The best (intent, score) pair over the whole keyword table, starting
from (UNKNOWN, 0.0). -/
def kwBest (text : String) : IntentType × ℚ :=
  kwPairs.foldl (kwStep text) (.unknown, 0)

/-- Mirror of `IntentParser._keyword_match` (lines 83–109). The slot
extraction `_extract_slots` is passed in as a parameter (its output is
never read by any embedded control path). -/
def IntentParser._keyword_match
    (extractSlots : String → IntentType → List (String × String))
    (text : String) : ParsedIntent :=
  let best := kwBest text
  let confidence := if best.2 > 0 then min (best.2 * 3) 1 else 0
  { intent_type := best.1
    domain := INTENT_DOMAIN_MAP best.1
    confidence := confidence
    slots := extractSlots text best.1
    raw_text := text }

/-- Mirror of `IntentType(s)` with `ValueError` fallback to UNKNOWN, as
used in `_llm_parse` and in the plan-execute agent. -/
def parseIntentTypeStr (s : String) : IntentType :=
  ((IntentType.all.find? (fun it => it.value == s)).getD .unknown)

/-- Structured object returned by `llm_client.generate_json` on the intent
parser path, with the defaults `_llm_parse` applies via `.get`. -/
structure LLMParseOut where
  intent : String := "unknown"
  confidence : ℚ := 1/2
  slots : List (String × String) := []

/-- An intent dict as exchanged between agents (`intent_results` items),
with the defaults applied via `.get` at the consumer sites. -/
structure IntentData where
  type : String := "unknown"
  confidence : ℚ := 1/2
  slots : List (String × String) := []
deriving DecidableEq, Repr

/-- Structured object returned by `llm_client.generate_json` on the CoT
path. -/
structure CotOut where
  response : String := ""
  intents : List IntentData := []
  reasoning : String := ""

/-- Behaviour of the LLM collaborator for one request: the parsed object
(or raised exception) that `generate_json` produces at each of its two call
sites. Quantifying over this structure covers every behaviour of the
collaborator, including failure. -/
structure LLMOracle where
  parseResult : Except String LLMParseOut
  cotResult : Except String CotOut

/-- Mirror of `IntentParser._llm_parse` (lines 156–192): a raised LLM
exception is caught and degrades to UNKNOWN with confidence 0. -/
def IntentParser._llm_parse (o : LLMOracle) (text : String) : ParsedIntent :=
  match o.parseResult with
  | .ok r =>
    let it := parseIntentTypeStr r.intent
    { intent_type := it
      domain := INTENT_DOMAIN_MAP it
      confidence := r.confidence
      slots := r.slots
      raw_text := text }
  | .error _ =>
    { intent_type := .unknown, domain := .general, confidence := 0, raw_text := text }

/-- Mirror of `IntentParser.parse` (lines 55–81): keyword matching first;
below the 0.5 threshold fall back to the LLM when configured, else UNKNOWN. -/
def IntentParser.parse (llm : Option LLMOracle)
    (extractSlots : String → IntentType → List (String × String))
    (text : String) : ParsedIntent :=
  let intent := IntentParser._keyword_match extractSlots text
  if intent.confidence > 1/2 then intent
  else match llm with
    | some o => IntentParser._llm_parse o text
    | none =>
      { intent_type := .unknown, domain := .general, confidence := 0, raw_text := text }

/-- A metadata value in a response metadata dict. -/
inductive MetaVal where
  | bool (b : Bool)
  | str (s : String)
  | waves (w : List (List String))
deriving DecidableEq, Repr

/-- Dict-style insert-or-replace on a metadata association list. -/
def metaSet (m : List (String × MetaVal)) (k : String) (v : MetaVal) :
    List (String × MetaVal) :=
  if m.any (fun p => p.1 == k) then
    m.map (fun p => if p.1 = k then (k, v) else p)
  else m ++ [(k, v)]

/-- Dict-style `.get(k, "")` returning the string value at a key. -/
def metaGetStr (m : List (String × MetaVal)) (k : String) : String :=
  match m.find? (fun p => p.1 == k) with
  | some (_, .str s) => s
  | _ => ""

/-- An agent response, from `src/agent/base_agent.py` (`AgentResponse`). -/
structure AgentResponse where
  content : String
  intent_results : List IntentData := []
  task_results : List ExecResult := []
  requires_confirmation : Bool := false
  confidence : ℚ := 0
  metadata : List (String × MetaVal) := []
deriving Repr

/-- Python `max((i.get("confidence", 0) for i in intents), default=0.0)`. -/
def maxConfidence : List IntentData → ℚ
  | [] => 0
  | d :: ds => ds.foldl (fun m x => max m x.confidence) d.confidence

/-- Mirror of `CoTAgent._rule_based_process`: keyword-parse the input with
no LLM and wrap the single intent as `intent_results`. -/
def CoTAgent._rule_based_process
    (extractSlots : String → IntentType → List (String × String))
    (user_input : String) : AgentResponse :=
  let intent := IntentParser.parse none extractSlots user_input
  { content := "已识别意图: " ++ intent.intent_type.value
    intent_results := [{ type := intent.intent_type.value
                         confidence := intent.confidence
                         slots := intent.slots }]
    confidence := intent.confidence }

/-- Mirror of `CoTAgent.process`: LLM chain-of-thought when available,
falling back to rule-based processing when the LLM is absent or raises. -/
def CoTAgent.process (llm : Option LLMOracle)
    (extractSlots : String → IntentType → List (String × String))
    (user_input : String) : AgentResponse :=
  match llm with
  | none => CoTAgent._rule_based_process extractSlots user_input
  | some o =>
    match o.cotResult with
    | .ok r =>
      { content := r.response
        intent_results := r.intents
        confidence := maxConfidence r.intents
        metadata := [("reasoning", .str r.reasoning)] }
    | .error _ => CoTAgent._rule_based_process extractSlots user_input

/-- The context dict handed to the plan-execute agent: the keys it reads
(`intent_results`, `driving_state`). -/
structure AgentContext where
  intentResults : List IntentData := []
  drivingState : String := "parked"
deriving Repr

/-- The typed intent the plan-execute agent reconstructs from an intent
dict (`plan_execute_agent.py` lines 56–69): the type string is mapped back
to the enum (UNKNOWN on failure) and the domain is re-derived from the
static map. -/
def planIntentOf (user_input : String) (d : IntentData) : ParsedIntent :=
  { intent_type := parseIntentTypeStr d.type
    domain := INTENT_DOMAIN_MAP (parseIntentTypeStr d.type)
    confidence := d.confidence
    slots := d.slots
    raw_text := user_input }

/-- Phase 1 of `PlanExecuteAgent.process` (lines 55–82): build the task for
the i-th intent dict, applying the safety gate; an unsafe sub-task is
marked cancelled with its error set to the blocked reason. -/
def planBuildTask (checker : Option SafetyChecker) (mkId : Nat → String)
    (user_input driving_state : String) (i : Nat) (d : IntentData) : Task :=
  match checker with
  | some cfg =>
    if (cfg.check (planIntentOf user_input d) driving_state).is_safe then
      TaskExecutor.intent_to_task mkId i (planIntentOf user_input d)
    else
      { TaskExecutor.intent_to_task mkId i (planIntentOf user_input d) with
        status := .cancelled
        error := some (cfg.check (planIntentOf user_input d)
          driving_state).blocked_reason }
  | none => TaskExecutor.intent_to_task mkId i (planIntentOf user_input d)

/-- One execution step of the wave loop of `PlanExecuteAgent.process`
(lines 95–109): execute a task (unless cancelled or failed), completing or
failing it in the graph and appending its result dict. -/
def planExecStep (handlers : Handlers) (st : TaskGraph × List ExecResult)
    (tid : String) : TaskGraph × List ExecResult :=
  match TaskGraph.findTask st.1.tasks tid with
  | some task =>
    if task.status ≠ .cancelled ∧ task.status ≠ .failed then
      match TaskExecutor.execute handlers task with
      | .ok r => (st.1.complete_task tid (some r), st.2 ++ [r])
      | .error e =>
        (st.1.fail_task tid e, st.2 ++ [{ status := "failed", error := some e }])
    else st
  | none => st

/-- The confirmation test of `PlanExecuteAgent.process` (lines 123–125):
`t.error and "需要确认" in t.error` over the batch's tasks. -/
def taskNeedsConfirmation (t : Task) : Bool :=
  match t.error with
  | some e => e ≠ "" && strContains e "需要确认"
  | none => false

/-- Shallow embedding of `PlanExecuteAgent.process`
(`src/agent/plan_execute_agent.py`, lines 32–133). Returns the response
together with the final task list of the request's graph (empty when no
graph is built), so that theorems can speak about the tasks created. -/
def PlanExecuteAgent.process (checker : Option SafetyChecker)
    (handlers : Handlers) (mkId : Nat → String)
    (user_input : String) (context : AgentContext) :
    AgentResponse × List Task :=
  let intent_results := context.intentResults
  if intent_results = [] then
    ({ content := "无法识别可执行的任务", confidence := 0 }, [])
  else
    let tasks := intent_results.enum.map (fun p =>
      planBuildTask checker mkId user_input context.drivingState p.1 p.2)
    let G : TaskGraph := tasks.foldl TaskGraph.add_task {}
    let safety_task_ids := (tasks.filter (fun t => t.domain == "safety")).map Task.task_id
    let G := tasks.foldl (fun G t =>
      if t.domain ≠ "safety" ∧ safety_task_ids ≠ [] then
        safety_task_ids.foldl (fun G sid => G.add_dependency t.task_id sid) G
      else G) G
    let execution_waves := G.get_execution_order
    let final := execution_waves.foldl (fun st wave =>
      wave.foldl (planExecStep handlers) st) (G, [])
    let G := final.1
    let task_results := final.2
    let success_count := (task_results.filter (fun r => r.status == "success")).length
    let total := task_results.length
    let content :=
      if total = 0 then "所有任务已被取消或无法执行"
      else if success_count = total then
        let messages := (task_results.map ExecResult.message).filter (fun m => m ≠ "")
        if messages ≠ [] then String.intercalate "；" messages else "所有任务执行完成"
      else "已完成 " ++ toString success_count ++ "/" ++ toString total ++ " 个任务"
    let requires_confirmation := G.tasks.any taskNeedsConfirmation
    (({ content := content
        task_results := task_results
        requires_confirmation := requires_confirmation
        confidence := (success_count : ℚ) / (max total 1 : ℚ)
        metadata := [("execution_waves", .waves execution_waves)] } : AgentResponse),
      G.tasks)

/-- Behaviour of the memory collaborator for one request: the outcome of
each memory operation the dispatcher performs (`.error` models a raised
exception). The payload of `get_context` feeds only LLM prompts, which the
LLM oracle already abstracts, so it carries no data here. -/
structure MemoryOracle where
  addUserMessage : String → Except String Unit
  addAssistantMessage : String → Except String Unit
  getContext : Except String Unit

/-- The blocked response built by `AgentDispatcher.process` (lines 102–109). -/
def blockedResponse (blocked_reason : String) : AgentResponse :=
  { content := "操作被阻止: " ++ blocked_reason
    confidence := 1
    metadata := [("safety_blocked", .bool true)] }

/-- Shallow embedding of `AgentDispatcher.process`
(`src/agent/dispatcher.py`, lines 81–146). A raised collaborator exception
that no `try/except` in the Python source guards is propagated as
`.error`; every guarded one is caught inside the embedded callees. Returns
the response together with the tasks created by the plan-execute agent
(empty when no task graph is built). -/
def AgentDispatcher.process (cfg : SafetyChecker) (fast_path_threshold : ℚ)
    (handlers : Handlers) (mkId : Nat → String) (mem : MemoryOracle)
    (llm : Option LLMOracle)
    (extractSlots : String → IntentType → List (String × String))
    (user_input : String) (driving_state : String) :
    Except String (AgentResponse × List Task) := do
  let _ ← mem.addUserMessage user_input
  let intent := IntentParser.parse llm extractSlots user_input
  let safety_result := cfg.check intent driving_state
  if ¬ safety_result.is_safe then
    let response := blockedResponse safety_result.blocked_reason
    let _ ← mem.addAssistantMessage response.content
    return (response, [])
  else
    let _ ← mem.getContext
    let base : AgentContext := { drivingState := driving_state }
    let pr :=
      if intent.confidence ≥ fast_path_threshold then
        PlanExecuteAgent.process (some cfg) handlers mkId user_input
          { base with intentResults := [{ type := intent.intent_type.value
                                          confidence := intent.confidence
                                          slots := intent.slots }] }
      else
        let cot_response := CoTAgent.process llm extractSlots user_input
        if cot_response.intent_results ≠ [] then
          let r := PlanExecuteAgent.process (some cfg) handlers mkId user_input
            { base with intentResults := cot_response.intent_results }
          let meta := metaSet r.1.metadata "cot_reasoning"
            (MetaVal.str (metaGetStr cot_response.metadata "reasoning"))
          ({ r.1 with metadata := meta }, r.2)
        else (cot_response, [])
    let response := pr.1
    let response :=
      if safety_result.requires_confirmation then
        { response with requires_confirmation := true
                        content := "[需要确认] " ++ response.content }
      else response
    let _ ← mem.addAssistantMessage response.content
    return (response, pr.2)

/-- Number of tasks of a given domain that are not cancelled. -/
def countNonCancelled (tasks : List Task) (d : String) : Nat :=
  tasks.countP (fun t => t.domain == d && !(t.status == TaskStatus.cancelled))

/-- The completed-id set in force when wave `i` of a wave list is formed:
the initial set plus every earlier wave. -/
def completedUpTo (c : List String) (waves : List (List String)) (i : Nat) :
    List String :=
  c ++ (waves.take i).flatten

/-- A task whose error field, if set, does not contain the confirmation
marker string. -/
def ErrOk (t : Task) : Prop :=
  ∀ e, t.error = some e → strContains e "需要确认" = false

/-- A memory collaborator whose operations all succeed. -/
def okMemOracle : MemoryOracle :=
  { addUserMessage := fun _ => .ok ()
    addAssistantMessage := fun _ => .ok ()
    getContext := .ok () }

/-- A memory collaborator whose `add_user_message` raises. -/
def failingMemOracle : MemoryOracle :=
  { okMemOracle with addUserMessage := fun _ => .error "memory down" }

/-- An injective id oracle for concrete instantiations. -/
def unaryId : Nat → String := fun i => String.mk (List.replicate i 'a')

/-- Concrete graph for exercising `fail_task`: `B` (pending) and `C`
(running) depend directly on `A`; `E` depends on `B` (a transitive
dependent of `A`); `D` is independent. -/
def failDemoGraph : TaskGraph :=
  { tasks :=
      [{ task_id := "A", status := .running },
       { task_id := "B", status := .pending, dependencies := ["A"] },
       { task_id := "C", status := .running, dependencies := ["A"] },
       { task_id := "D", status := .ready },
       { task_id := "E", status := .pending, dependencies := ["B"] }] }

/-- Concrete pending navigation tasks for exercising the scheduler (the
explicit priority 80 keeps `submit_task` from rewriting the record). -/
def navTask1 : Task :=
  { task_id := "n1", domain := "navigation", status := .pending, priority := 80 }

/-- A second pending navigation task with a distinct id. -/
def navTask2 : Task :=
  { task_id := "n2", domain := "navigation", status := .pending, priority := 80 }

/-- Concrete graph for exercising `get_execution_order`: `B` and `C` each
depend exactly on `A`; `D` depends on `B`. -/
def waveDemoGraph : TaskGraph :=
  { tasks :=
      [{ task_id := "A", status := .pending },
       { task_id := "B", status := .pending, dependencies := ["A"] },
       { task_id := "C", status := .pending, dependencies := ["A"] },
       { task_id := "D", status := .pending, dependencies := ["B"] }] }

/-! Theorems. -/

theorem strContains_middle (a b c : String) : strContains (a ++ b ++ c) b = true := by
  simp only [strContains, decide_eq_true_eq]
  exact ⟨a.data, c.data, by simp [String.data_append, List.append_assoc]⟩

theorem advisory_ne_confirmWarning (it : IntentType) :
    highwayNavAdvisory ≠ confirmWarningFor it.value := by
  cases it <;> decide

/-- C1 counterexample: the claim quantifies over *every* intent, but
`SafetyChecker.check` passes SAFETY-domain intents before consulting the
blocked set. With `emergency_call` in the configured blocked set and the
EMERGENCY_CALL intent (whose derived domain is SAFETY) checked while
driving, the verdict is `is_safe = true`, not `false` as the claim
requires. -/
theorem C1_counterexample :
    "emergency_call" ∈
      (SafetyChecker.mk ["emergency_call"] []).blocked_while_driving ∧
    ((SafetyChecker.mk ["emergency_call"] []).check
      (ParsedIntent.mk' .emergency_call (9/10) [] "SOS") "driving").is_safe = true := by
  constructor
  · decide
  · rfl

/-- C1 (amended): for every intent whose domain is not SAFETY and every
driving_state in {driving, highway}, if the intent's action name is in the
configured blocked_while_driving set then `SafetyChecker.check` returns
`is_safe = false` with a blocked_reason containing that action name. -/
theorem C1_blocked_while_driving (cfg : SafetyChecker) (intent : ParsedIntent)
    (ds : String) (hdom : intent.domain ≠ DomainType.safety)
    (hds : ds = "driving" ∨ ds = "highway")
    (hblk : intent.intent_type.value ∈ cfg.blocked_while_driving) :
    (cfg.check intent ds).is_safe = false ∧
      strContains (cfg.check intent ds).blocked_reason intent.intent_type.value = true := by
  unfold SafetyChecker.check
  rw [if_neg hdom, if_pos hds, if_pos hblk]
  exact ⟨rfl, strContains_middle "操作 '" intent.intent_type.value "' 在行驶中被禁止"⟩

/-- Witness for C1 (amended) at a concrete input: a navigation intent with
`navigate_to` in the blocked set, checked while driving. -/
theorem C1_blocked_while_driving_witness :
    (ParsedIntent.mk' .navigate_to 1 [] "x").domain ≠ DomainType.safety ∧
    (((SafetyChecker.mk ["navigate_to"] []).check
        (ParsedIntent.mk' .navigate_to 1 [] "x") "driving").is_safe = false ∧
      strContains ((SafetyChecker.mk ["navigate_to"] []).check
        (ParsedIntent.mk' .navigate_to 1 [] "x") "driving").blocked_reason
        (ParsedIntent.mk' .navigate_to 1 [] "x").intent_type.value = true) :=
  ⟨by decide,
   C1_blocked_while_driving (SafetyChecker.mk ["navigate_to"] [])
     (ParsedIntent.mk' .navigate_to 1 [] "x") "driving"
     (by decide) (Or.inl rfl) (by decide)⟩

/-- C3: every intent whose domain is SAFETY passes the safety gate in every
driving state, and the EMERGENCY_CALL intent additionally has
`requires_confirmation = true`. -/
theorem C3_safety_domain_always_passes (cfg : SafetyChecker)
    (intent : ParsedIntent) (ds : String)
    (hds : ds = "parked" ∨ ds = "driving" ∨ ds = "highway")
    (hdom : intent.domain = DomainType.safety) :
    (cfg.check intent ds).is_safe = true ∧
      (intent.intent_type = IntentType.emergency_call →
        (cfg.check intent ds).requires_confirmation = true) := by
  unfold SafetyChecker.check
  rw [if_pos hdom]
  by_cases h : intent.intent_type = IntentType.emergency_call
  · rw [if_pos h]
    exact ⟨rfl, fun _ => rfl⟩
  · rw [if_neg h]
    exact ⟨rfl, fun hc => absurd hc h⟩

/-- Witness for C3 at a concrete input: EMERGENCY_CALL while driving. -/
theorem C3_safety_domain_always_passes_witness :
    (ParsedIntent.mk' .emergency_call (4/5) [] "SOS").domain = DomainType.safety ∧
    (((SafetyChecker.mk ["emergency_call"] []).check
        (ParsedIntent.mk' .emergency_call (4/5) [] "SOS") "driving").is_safe = true ∧
      ((ParsedIntent.mk' .emergency_call (4/5) [] "SOS").intent_type =
          IntentType.emergency_call →
        ((SafetyChecker.mk ["emergency_call"] []).check
          (ParsedIntent.mk' .emergency_call (4/5) [] "SOS")
          "driving").requires_confirmation = true)) :=
  ⟨rfl,
   C3_safety_domain_always_passes (SafetyChecker.mk ["emergency_call"] [])
     (ParsedIntent.mk' .emergency_call (4/5) [] "SOS") "driving"
     (Or.inr (Or.inl rfl)) rfl⟩

/-- C8 counterexample: the claim asserts the highway advisory is present
regardless of outcome, but a NAVIGATION intent whose action is in the
blocked set is rejected at highway speed with an *empty* warnings list. -/
theorem C8_counterexample :
    (ParsedIntent.mk' .navigate_to 1 [] "x").domain = DomainType.navigation ∧
    ((SafetyChecker.mk ["navigate_to"] []).check
      (ParsedIntent.mk' .navigate_to 1 [] "x") "highway").is_safe = false ∧
    ((SafetyChecker.mk ["navigate_to"] []).check
      (ParsedIntent.mk' .navigate_to 1 [] "x") "highway").warnings = [] := by
  refine ⟨rfl, rfl, rfl⟩

/-- C8 (amended): a NAVIGATION-domain intent checked at highway speed
carries the advisory warning exactly when the verdict is a plain pass
(safe and not requiring confirmation); blocked and confirmation-required
verdicts carry no advisory. -/
theorem C8_highway_advisory_iff (cfg : SafetyChecker) (intent : ParsedIntent)
    (hdom : intent.domain = DomainType.navigation) :
    highwayNavAdvisory ∈ (cfg.check intent "highway").warnings ↔
      ((cfg.check intent "highway").is_safe = true ∧
        (cfg.check intent "highway").requires_confirmation = false) := by
  unfold SafetyChecker.check
  rw [if_neg (by rw [hdom]; exact fun h => nomatch h), if_pos (Or.inr rfl)]
  by_cases hblk : intent.intent_type.value ∈ cfg.blocked_while_driving
  · rw [if_pos hblk]
    simp
  · rw [if_neg hblk]
    by_cases hcf :
        (if "highway" = "highway" ∧ intent.intent_type = IntentType.open_window
          then "open_window_highway" else intent.intent_type.value) ∈
          cfg.require_confirmation
    · rw [if_pos hcf]
      simp [advisory_ne_confirmWarning intent.intent_type]
    · rw [if_neg hcf]
      rw [if_pos ⟨hdom, rfl⟩]
      simp

/-- Witness for C8 (amended) at a concrete input: a plain navigation pass
at highway speed carries the advisory. -/
theorem C8_highway_advisory_iff_witness :
    (ParsedIntent.mk' .navigate_to 1 [] "x").domain = DomainType.navigation ∧
    (highwayNavAdvisory ∈ ((SafetyChecker.mk [] []).check
        (ParsedIntent.mk' .navigate_to 1 [] "x") "highway").warnings ↔
      (((SafetyChecker.mk [] []).check
          (ParsedIntent.mk' .navigate_to 1 [] "x") "highway").is_safe = true ∧
        ((SafetyChecker.mk [] []).check
          (ParsedIntent.mk' .navigate_to 1 [] "x")
          "highway").requires_confirmation = false)) :=
  ⟨rfl,
   C8_highway_advisory_iff (SafetyChecker.mk [] [])
     (ParsedIntent.mk' .navigate_to 1 [] "x") rfl⟩

/-- C9: `fail_task(id, error)` marks the task with that id failed with the
given error and cancels exactly the direct dependents currently in
pending/ready status; every other task — transitive dependents and direct
dependents in running or terminal status included — is left unchanged.
The update is the per-task `failStep` mapped over the graph, so the task
list keeps its shape and ids. -/
theorem C9_fail_task_direct_cancellation (G : TaskGraph) (tid err : String)
    (hmem : G.tasks.any (fun u => u.task_id == tid) = true) :
    (G.fail_task tid err).tasks = G.tasks.map (TaskGraph.failStep tid err) ∧
    ∀ u ∈ G.tasks,
      (u.task_id = tid →
        (TaskGraph.failStep tid err u).status = TaskStatus.failed ∧
        (TaskGraph.failStep tid err u).error = some err) ∧
      (u.task_id ≠ tid → tid ∈ u.dependencies →
        (u.status = TaskStatus.pending ∨ u.status = TaskStatus.ready) →
        (TaskGraph.failStep tid err u).status = TaskStatus.cancelled) ∧
      (u.task_id ≠ tid →
        (tid ∉ u.dependencies ∨
          ¬(u.status = TaskStatus.pending ∨ u.status = TaskStatus.ready)) →
        TaskGraph.failStep tid err u = u) := by
  constructor
  · unfold TaskGraph.fail_task
    rw [if_pos hmem]
  · intro u _
    refine ⟨?_, ?_, ?_⟩
    · intro hid
      unfold TaskGraph.failStep
      rw [if_pos hid]
      exact ⟨rfl, rfl⟩
    · intro hid hdep hst
      unfold TaskGraph.failStep
      rw [if_neg hid, if_pos ⟨hdep, hst⟩]
      rfl
    · intro hid hnot
      unfold TaskGraph.failStep
      rw [if_neg hid, if_neg (fun hc => ?_)]
      rcases hnot with h | h
      · exact h hc.1
      · exact h hc.2

/-- Witness for C9 at a concrete graph: failing `A` cancels its pending
direct dependent `B`, leaves its running direct dependent `C`, the
independent task `D`, and the transitive dependent `E` unchanged. -/
theorem C9_fail_task_direct_cancellation_witness :
    (failDemoGraph.tasks.any (fun u => u.task_id == "A") = true) ∧
    ((failDemoGraph.fail_task "A" "boom").tasks =
      failDemoGraph.tasks.map (TaskGraph.failStep "A" "boom") ∧
    ∀ u ∈ failDemoGraph.tasks,
      (u.task_id = "A" →
        (TaskGraph.failStep "A" "boom" u).status = TaskStatus.failed ∧
        (TaskGraph.failStep "A" "boom" u).error = some "boom") ∧
      (u.task_id ≠ "A" → "A" ∈ u.dependencies →
        (u.status = TaskStatus.pending ∨ u.status = TaskStatus.ready) →
        (TaskGraph.failStep "A" "boom" u).status = TaskStatus.cancelled) ∧
      (u.task_id ≠ "A" →
        ("A" ∉ u.dependencies ∨
          ¬(u.status = TaskStatus.pending ∨ u.status = TaskStatus.ready)) →
        TaskGraph.failStep "A" "boom" u = u)) :=
  ⟨by decide, C9_fail_task_direct_cancellation failDemoGraph "A" "boom" (by decide)⟩

theorem kwFold_spec (text : String) (l : List (IntentType × String))
    (acc : IntentType × ℚ) :
    (l.foldl (kwStep text) acc = acc ∨
      ∃ p ∈ l, kwMatches text p.2 = true ∧
        (l.foldl (kwStep text) acc).2 = kwScore text.length p.2 ∧
        acc.2 < (l.foldl (kwStep text) acc).2) ∧
    acc.2 ≤ (l.foldl (kwStep text) acc).2 ∧
    (∀ p ∈ l, kwMatches text p.2 = true →
      kwScore text.length p.2 ≤ (l.foldl (kwStep text) acc).2) := by
  induction l generalizing acc with
  | nil => exact ⟨Or.inl rfl, le_refl _, by intro p hp; cases hp⟩
  | cons q rest ih =>
    simp only [List.foldl_cons]
    obtain ⟨ih1, ih2, ih3⟩ := ih (kwStep text acc q)
    have hstep : kwStep text acc q = acc ∨
        (kwMatches text q.2 = true ∧
          (kwStep text acc q).2 = kwScore text.length q.2 ∧
          acc.2 < (kwStep text acc q).2) := by
      unfold kwStep
      by_cases hq : kwMatches text q.2 = true ∧ kwScore text.length q.2 > acc.2
      · rw [if_pos hq]; exact Or.inr ⟨hq.1, rfl, hq.2⟩
      · rw [if_neg hq]; exact Or.inl rfl
    have hmono : acc.2 ≤ (kwStep text acc q).2 := by
      rcases hstep with h | h
      · rw [h]
      · exact le_of_lt h.2.2
    refine ⟨?_, le_trans hmono ih2, ?_⟩
    · rcases ih1 with h | ⟨p, hp, hm, he, hlt⟩
      · rw [h]
        rcases hstep with h' | ⟨hm, he, hlt⟩
        · exact Or.inl h'
        · exact Or.inr ⟨q, List.mem_cons_self _ _, hm, he, hlt⟩
      · exact Or.inr ⟨p, List.mem_cons_of_mem _ hp, hm, he, lt_of_le_of_lt hmono hlt⟩
    · intro p hp hm
      rcases List.mem_cons.mp hp with rfl | hp'
      · have hq : kwScore text.length p.2 ≤ (kwStep text acc p).2 := by
          unfold kwStep
          by_cases hc : kwMatches text p.2 = true ∧ kwScore text.length p.2 > acc.2
          · rw [if_pos hc]
          · rw [if_neg hc]
            by_contra hlt
            exact hc ⟨hm, lt_of_not_le hlt⟩
        exact le_trans hq ih2
      · exact ih3 p hp' hm

theorem kwFold_const_of_unmatched (text : String) (l : List (IntentType × String))
    (acc : IntentType × ℚ) (h : ∀ p ∈ l, kwMatches text p.2 = false) :
    l.foldl (kwStep text) acc = acc := by
  induction l generalizing acc with
  | nil => rfl
  | cons q rest ih =>
    simp only [List.foldl_cons]
    have hq : kwStep text acc q = acc := by
      unfold kwStep
      rw [if_neg]
      intro hc
      rw [h q (List.mem_cons_self _ _)] at hc
      exact Bool.false_ne_true hc.1
    rw [hq]
    exact ih acc (fun p hp => h p (List.mem_cons_of_mem _ hp))

theorem kwPairs_length_pos : ∀ p ∈ kwPairs, 0 < p.2.length := by decide

/-- C10: for every non-empty utterance, if some configured keyword matches
(case-insensitively, as the code tests), the confidence of the keyword
classification equals `min(len(keyword)/len(text)*3.0, 1.0)` taken at a
highest-scoring matched keyword; if no keyword matches, the confidence is
0 and the intent type is UNKNOWN. -/
theorem C10_keyword_confidence
    (extractSlots : String → IntentType → List (String × String))
    (text : String) (htext : text ≠ "") :
    ((∃ p ∈ kwPairs, kwMatches text p.2 = true) →
      ∃ q ∈ kwPairs, kwMatches text q.2 = true ∧
        (∀ p ∈ kwPairs, kwMatches text p.2 = true →
          kwScore text.length p.2 ≤ kwScore text.length q.2) ∧
        (IntentParser._keyword_match extractSlots text).confidence =
          min ((q.2.length : ℚ) / (text.length : ℚ) * 3) 1) ∧
    ((∀ p ∈ kwPairs, kwMatches text p.2 = false) →
      (IntentParser._keyword_match extractSlots text).confidence = 0 ∧
      (IntentParser._keyword_match extractSlots text).intent_type =
        IntentType.unknown) := by
  have hlen : 0 < text.length := by
    rcases text with ⟨d⟩
    have hd : d ≠ [] := by
      intro h
      exact htext (by rw [h])
    simpa [String.length] using List.length_pos.mpr hd
  have hmax : ((text.length : ℚ) ⊔ 1) = (text.length : ℚ) :=
    max_eq_left (Nat.one_le_cast.mpr hlen)
  constructor
  · rintro ⟨p, hp, hm⟩
    obtain ⟨h1, _, h3⟩ := kwFold_spec text kwPairs (.unknown, 0)
    have hppos : (0 : ℚ) < kwScore text.length p.2 := by
      unfold kwScore
      apply div_pos
      · exact_mod_cast kwPairs_length_pos p hp
      · exact_mod_cast Nat.lt_of_lt_of_le Nat.zero_lt_one (Nat.le_max_right _ _)
    have hbestpos : (0 : ℚ) < (kwBest text).2 :=
      lt_of_lt_of_le hppos (h3 p hp hm)
    rcases h1 with h | ⟨q, hq, hqm, hqe, _⟩
    · exfalso
      have hb : (kwBest text) = (IntentType.unknown, 0) := h
      rw [hb] at hbestpos
      exact lt_irrefl 0 hbestpos
    · have hqe' : (kwBest text).2 = kwScore text.length q.2 := hqe
      refine ⟨q, hq, hqm, ?_, ?_⟩
      · intro r hr hrm
        calc kwScore text.length r.2 ≤ (kwBest text).2 := h3 r hr hrm
          _ = kwScore text.length q.2 := hqe'
      · unfold IntentParser._keyword_match
        simp only
        rw [if_pos hbestpos, hqe']
        unfold kwScore
        rw [hmax]
  · intro hnone
    have hfold : kwBest text = (.unknown, 0) :=
      kwFold_const_of_unmatched text kwPairs (.unknown, 0) hnone
    constructor <;> simp [IntentParser._keyword_match, hfold]

/-- Witness for C10 at a concrete input: the utterance `导航到天安门` (length
6) matches the keyword `导航到` (length 3), giving confidence
`min(3/6*3, 1) = 1`. -/
theorem C10_keyword_confidence_witness :
    ("导航到天安门" : String) ≠ "" ∧
    (((∃ p ∈ kwPairs, kwMatches "导航到天安门" p.2 = true) →
      ∃ q ∈ kwPairs, kwMatches "导航到天安门" q.2 = true ∧
        (∀ p ∈ kwPairs, kwMatches "导航到天安门" p.2 = true →
          kwScore ("导航到天安门" : String).length p.2 ≤
            kwScore ("导航到天安门" : String).length q.2) ∧
        (IntentParser._keyword_match (fun _ _ => []) "导航到天安门").confidence =
          min ((q.2.length : ℚ) / (("导航到天安门" : String).length : ℚ) * 3) 1) ∧
    ((∀ p ∈ kwPairs, kwMatches "导航到天安门" p.2 = false) →
      (IntentParser._keyword_match (fun _ _ => []) "导航到天安门").confidence = 0 ∧
      (IntentParser._keyword_match (fun _ _ => []) "导航到天安门").intent_type =
        IntentType.unknown)) :=
  ⟨by decide, C10_keyword_confidence (fun _ _ => []) "导航到天安门" (by decide)⟩

theorem countPred_iff (d : String) (u : Task) :
    ((u.domain == d && !(u.status == TaskStatus.cancelled)) = true) ↔
      (u.domain = d ∧ u.status ≠ TaskStatus.cancelled) := by
  simp [Bool.and_eq_true, beq_iff_eq, Bool.not_eq_true']

theorem taskIds_map_of_preserve (l : List Task) (g : Task → Task)
    (hg : ∀ u, (g u).task_id = u.task_id) :
    (l.map g).map Task.task_id = l.map Task.task_id := by
  rw [List.map_map]
  exact List.map_congr_left (fun u _ => hg u)

theorem length_le_one_of_same_id (m : List Task) (i : String)
    (hnd : (m.map Task.task_id).Nodup)
    (hall : ∀ u ∈ m, u.task_id = i) : m.length ≤ 1 := by
  match m with
  | [] => simp
  | [u] => simp
  | u :: v :: rest =>
    exfalso
    have h1 : u.task_id = i := hall u (by simp)
    have h2 : v.task_id = i := hall v (by simp)
    have hmem : u.task_id ∈ (v :: rest).map Task.task_id := by
      simp [h1, h2]
    simp only [List.map_cons, List.nodup_cons] at hnd
    exact hnd.1 hmem

theorem count_le_one_of_unique_id (l : List Task) (d i : String)
    (hnd : (l.map Task.task_id).Nodup)
    (h : ∀ u ∈ l, u.domain = d → u.status ≠ TaskStatus.cancelled → u.task_id = i) :
    countNonCancelled l d ≤ 1 := by
  unfold countNonCancelled
  rw [List.countP_eq_length_filter]
  apply length_le_one_of_same_id _ i
  · exact List.Nodup.sublist
      (List.Sublist.map Task.task_id (List.filter_sublist l)) hnd
  · intro u hu
    have hm := List.mem_filter.mp hu
    have hp := (countPred_iff d u).mp hm.2
    exact h u hm.1 hp.1 hp.2

theorem countNonCancelled_map_le (l : List Task) (g : Task → Task) (d : String)
    (hg : ∀ u ∈ l, (g u).domain = d → (g u).status ≠ TaskStatus.cancelled →
      (u.domain = d ∧ u.status ≠ TaskStatus.cancelled)) :
    countNonCancelled (l.map g) d ≤ countNonCancelled l d := by
  unfold countNonCancelled
  rw [List.countP_map]
  apply List.countP_mono_left
  intro u hu hc
  have := hg u hu
  simp only [Function.comp_apply] at hc
  rw [countPred_iff] at hc
  exact (countPred_iff d u).mpr (this hc.1 hc.2)

theorem conflicts_tasks_eq (s : TaskScheduler) (t : Task) :
    (s._handle_conflicts t).graph.tasks =
      if t.domain = "navigation" ∨ t.domain = "music" then
        s.graph.tasks.map (fun u => if conflictCancels t u then u.mark_cancelled else u)
      else s.graph.tasks := by
  unfold TaskScheduler._handle_conflicts
  split <;> rfl

theorem addTask_ids_nodup (G : TaskGraph) (t : Task)
    (hnd : (G.tasks.map Task.task_id).Nodup) :
    (((G.add_task t).tasks).map Task.task_id).Nodup := by
  unfold TaskGraph.add_task
  by_cases hmem : G.tasks.any (fun u => u.task_id == t.task_id) = true
  · rw [if_pos hmem]
    simp only
    have : ((G.tasks.map (fun u => if u.task_id = t.task_id then t else u)).map
        Task.task_id) = G.tasks.map Task.task_id := by
      apply taskIds_map_of_preserve
      intro u
      by_cases h : u.task_id = t.task_id
      · rw [if_pos h, h]
      · rw [if_neg h]
    rw [this]
    exact hnd
  · rw [if_neg hmem]
    simp only [List.map_append, List.map_cons, List.map_nil]
    rw [List.nodup_append]
    refine ⟨hnd, List.nodup_singleton _, ?_⟩
    intro x hx hx1
    simp only [List.mem_singleton] at hx1
    subst hx1
    rcases List.mem_map.mp hx with ⟨u, hu, hid⟩
    exact hmem (List.any_eq_true.mpr ⟨u, hu, by rw [beq_iff_eq]; exact hid⟩)

theorem addTask_status (G : TaskGraph) (t : Task)
    (hst : ∀ u ∈ G.tasks,
      u.status = TaskStatus.pending ∨ u.status = TaskStatus.cancelled)
    (ht : t.status = TaskStatus.pending) :
    ∀ u ∈ (G.add_task t).tasks,
      u.status = TaskStatus.pending ∨ u.status = TaskStatus.cancelled := by
  unfold TaskGraph.add_task
  by_cases hmem : G.tasks.any (fun u => u.task_id == t.task_id) = true
  · rw [if_pos hmem]
    intro u hu
    rcases List.mem_map.mp hu with ⟨v, hv, he⟩
    by_cases h : v.task_id = t.task_id
    · rw [if_pos h] at he
      exact he ▸ Or.inl ht
    · rw [if_neg h] at he
      exact he ▸ hst v hv
  · rw [if_neg hmem]
    intro u hu
    rcases List.mem_append.mp hu with h | h
    · exact hst u h
    · simp only [List.mem_singleton] at h
      exact h ▸ Or.inl ht

theorem addTask_count_unique (G : TaskGraph) (t : Task) (d : String)
    (hnd : (G.tasks.map Task.task_id).Nodup)
    (hall : ∀ u ∈ G.tasks, u.domain = d → u.status ≠ TaskStatus.cancelled →
      u.task_id = t.task_id) :
    countNonCancelled (G.add_task t).tasks d ≤ 1 := by
  apply count_le_one_of_unique_id _ d t.task_id (addTask_ids_nodup G t hnd)
  unfold TaskGraph.add_task
  by_cases hmem : G.tasks.any (fun u => u.task_id == t.task_id) = true
  · rw [if_pos hmem]
    intro u hu hd hc
    rcases List.mem_map.mp hu with ⟨v, hv, he⟩
    by_cases h : v.task_id = t.task_id
    · rw [if_pos h] at he
      rw [← he]
    · rw [if_neg h] at he
      exact absurd (hall v hv (he ▸ hd) (he ▸ hc)) h
  · rw [if_neg hmem]
    intro u hu hd hc
    rcases List.mem_append.mp hu with h | h
    · exact hall u h hd hc
    · simp only [List.mem_singleton] at h
      rw [h]

theorem addTask_count_le (G : TaskGraph) (t : Task) (d : String)
    (hne : t.domain ≠ d) :
    countNonCancelled (G.add_task t).tasks d ≤ countNonCancelled G.tasks d := by
  unfold TaskGraph.add_task
  by_cases hmem : G.tasks.any (fun u => u.task_id == t.task_id) = true
  · rw [if_pos hmem]
    apply countNonCancelled_map_le
    intro u _ hd hc
    by_cases h : u.task_id = t.task_id
    · rw [if_pos h] at hd
      exact absurd hd hne
    · rw [if_neg h] at hd hc
      exact ⟨hd, hc⟩
  · rw [if_neg hmem]
    unfold countNonCancelled
    rw [List.countP_append]
    have : List.countP (fun u => u.domain == d && !(u.status == TaskStatus.cancelled))
        [t] = 0 := by
      simp only [List.countP_singleton]
      rw [if_neg]
      intro hc
      exact hne ((countPred_iff d t).mp hc).1
    rw [this]
    exact Nat.le_of_eq (Nat.add_zero _)

theorem conflicts_ids_nodup (s : TaskScheduler) (t : Task)
    (hnd : (s.graph.tasks.map Task.task_id).Nodup) :
    (((s._handle_conflicts t).graph.tasks).map Task.task_id).Nodup := by
  rw [conflicts_tasks_eq]
  split
  · rw [taskIds_map_of_preserve]
    · exact hnd
    · intro u
      by_cases h : conflictCancels t u
      · rw [if_pos h]; rfl
      · rw [if_neg h]
  · exact hnd

theorem conflicts_status (s : TaskScheduler) (t : Task)
    (hst : ∀ u ∈ s.graph.tasks,
      u.status = TaskStatus.pending ∨ u.status = TaskStatus.cancelled) :
    ∀ u ∈ (s._handle_conflicts t).graph.tasks,
      u.status = TaskStatus.pending ∨ u.status = TaskStatus.cancelled := by
  rw [conflicts_tasks_eq]
  split
  · intro u hu
    rcases List.mem_map.mp hu with ⟨v, hv, he⟩
    by_cases h : conflictCancels t v
    · rw [if_pos h] at he
      exact he ▸ Or.inr rfl
    · rw [if_neg h] at he
      exact he ▸ hst v hv
  · exact hst

theorem conflicts_count_le (s : TaskScheduler) (t : Task) (d : String) :
    countNonCancelled (s._handle_conflicts t).graph.tasks d ≤
      countNonCancelled s.graph.tasks d := by
  rw [conflicts_tasks_eq]
  split
  · apply countNonCancelled_map_le
    intro u _ hd hc
    by_cases h : conflictCancels t u
    · rw [if_pos h] at hc
      exact absurd rfl hc
    · rw [if_neg h] at hd hc
      exact ⟨hd, hc⟩
  · exact le_refl _

theorem conflicts_unique_survivor (s : TaskScheduler) (t : Task)
    (hexcl : t.domain = "navigation" ∨ t.domain = "music")
    (hst : ∀ u ∈ s.graph.tasks,
      u.status = TaskStatus.pending ∨ u.status = TaskStatus.cancelled) :
    ∀ u ∈ (s._handle_conflicts t).graph.tasks,
      u.domain = t.domain → u.status ≠ TaskStatus.cancelled →
        u.task_id = t.task_id := by
  rw [conflicts_tasks_eq, if_pos hexcl]
  intro u hu hd hc
  rcases List.mem_map.mp hu with ⟨v, hv, he⟩
  by_cases h : conflictCancels t v
  · rw [if_pos h] at he
    exact absurd (he ▸ rfl) hc
  · rw [if_neg h] at he
    subst he
    by_cases hid : v.task_id = t.task_id
    · exact hid
    · exfalso
      apply h
      refine ⟨hd, ?_, hid⟩
      rcases hst v hv with hp | hcc
      · exact Or.inl hp
      · exact absurd hcc hc

theorem submit_task_inv (s : TaskScheduler) (t : Task)
    (hnd : (s.graph.tasks.map Task.task_id).Nodup)
    (hst : ∀ u ∈ s.graph.tasks,
      u.status = TaskStatus.pending ∨ u.status = TaskStatus.cancelled)
    (hcnt : ∀ d, (d = "navigation" ∨ d = "music") →
      countNonCancelled s.graph.tasks d ≤ 1)
    (ht : t.status = TaskStatus.pending) :
    (((s.submit_task t).graph.tasks).map Task.task_id).Nodup ∧
    (∀ u ∈ (s.submit_task t).graph.tasks,
      u.status = TaskStatus.pending ∨ u.status = TaskStatus.cancelled) ∧
    (∀ d, (d = "navigation" ∨ d = "music") →
      countNonCancelled (s.submit_task t).graph.tasks d ≤ 1) := by
  unfold TaskScheduler.submit_task
  simp only
  set t' := if t.priority = 50
    then { t with priority := s.config.get_domain_priority t.domain } else t with ht'
  have hid' : t'.task_id = t.task_id := by
    rw [ht']; split <;> rfl
  have hdom' : t'.domain = t.domain := by
    rw [ht']; split <;> rfl
  have hstat' : t'.status = t.status := by
    rw [ht']; split <;> rfl
  have hnd1 := conflicts_ids_nodup s t' hnd
  have hst1 := conflicts_status s t' hst
  refine ⟨addTask_ids_nodup _ _ hnd1, addTask_status _ _ hst1 (hstat' ▸ ht), ?_⟩
  intro d hd
  by_cases hdt : d = t'.domain
  · subst hdt
    apply addTask_count_unique _ _ _ hnd1
    intro u hu hud huc
    by_cases hexcl : t'.domain = "navigation" ∨ t'.domain = "music"
    · exact conflicts_unique_survivor s t' hexcl hst u hu hud huc
    · exact absurd hd hexcl
  · calc countNonCancelled ((s._handle_conflicts t').graph.add_task t').tasks d
        ≤ countNonCancelled (s._handle_conflicts t').graph.tasks d :=
          addTask_count_le _ _ _ (fun h => hdt h.symm)
      _ ≤ countNonCancelled s.graph.tasks d := conflicts_count_le s t' d
      _ ≤ 1 := hcnt d hd

theorem submit_cancels_incumbent (s : TaskScheduler) (t old : Task)
    (hexcl : t.domain = "navigation" ∨ t.domain = "music")
    (hold : old ∈ s.graph.tasks)
    (hdom : old.domain = t.domain)
    (hstatus : old.status = TaskStatus.pending ∨ old.status = TaskStatus.ready ∨
      old.status = TaskStatus.running)
    (hid : old.task_id ≠ t.task_id) :
    old.mark_cancelled ∈ (s.submit_task t).graph.tasks := by
  unfold TaskScheduler.submit_task
  simp only
  set t' := if t.priority = 50
    then { t with priority := s.config.get_domain_priority t.domain } else t with ht'
  have hid' : t'.task_id = t.task_id := by
    rw [ht']; split <;> rfl
  have hdom' : t'.domain = t.domain := by
    rw [ht']; split <;> rfl
  have hcc : conflictCancels t' old :=
    ⟨hdom.trans hdom'.symm, hstatus, fun h => hid (h.trans hid')⟩
  have hmem1 : old.mark_cancelled ∈ (s._handle_conflicts t').graph.tasks := by
    rw [conflicts_tasks_eq, if_pos (hdom' ▸ hexcl)]
    refine List.mem_map.mpr ⟨old, hold, ?_⟩
    show (if conflictCancels t' old then old.mark_cancelled else old) =
      old.mark_cancelled
    exact if_pos hcc
  unfold TaskGraph.add_task
  by_cases hm : (s._handle_conflicts t').graph.tasks.any
      (fun u => u.task_id == t'.task_id) = true
  · rw [if_pos hm]
    show old.mark_cancelled ∈ (s._handle_conflicts t').graph.tasks.map
      (fun u => if u.task_id = t'.task_id then t' else u)
    refine List.mem_map.mpr ⟨old.mark_cancelled, hmem1, ?_⟩
    have hne : old.mark_cancelled.task_id ≠ t'.task_id := by
      show old.task_id ≠ t'.task_id
      rw [hid']
      exact hid
    show (if old.mark_cancelled.task_id = t'.task_id then t'
      else old.mark_cancelled) = old.mark_cancelled
    exact if_neg hne
  · rw [if_neg hm]
    exact List.mem_append_left _ hmem1

theorem submit_fold_inv (ts : List Task) (s : TaskScheduler)
    (hnd : (s.graph.tasks.map Task.task_id).Nodup)
    (hst : ∀ u ∈ s.graph.tasks,
      u.status = TaskStatus.pending ∨ u.status = TaskStatus.cancelled)
    (hcnt : ∀ d, (d = "navigation" ∨ d = "music") →
      countNonCancelled s.graph.tasks d ≤ 1)
    (hts : ∀ u ∈ ts, u.status = TaskStatus.pending) :
    ∀ d, (d = "navigation" ∨ d = "music") →
      countNonCancelled ((ts.foldl TaskScheduler.submit_task s).graph.tasks) d ≤ 1 := by
  induction ts generalizing s with
  | nil => exact hcnt
  | cons t rest ih =>
    simp only [List.foldl_cons]
    obtain ⟨h1, h2, h3⟩ := submit_task_inv s t hnd hst hcnt
      (hts t (List.mem_cons_self _ _))
    exact ih (s.submit_task t) h1 h2 h3
      (fun u hu => hts u (List.mem_cons_of_mem _ hu))

/-- C4: (i) submitting a task in an exclusivity domain (navigation or
music) while an earlier non-terminal task of the same domain is in the
scheduler's graph cancels that earlier task; (ii) along every sequence of
`submit_task` calls on freshly created (pending) tasks starting from a new
scheduler, at most one non-cancelled task per exclusivity domain is in the
graph at every point. -/
theorem C4_domain_exclusivity :
    (∀ (s : TaskScheduler) (t old : Task),
      (t.domain = "navigation" ∨ t.domain = "music") →
      old ∈ s.graph.tasks → old.domain = t.domain →
      (old.status = TaskStatus.pending ∨ old.status = TaskStatus.ready ∨
        old.status = TaskStatus.running) →
      old.task_id ≠ t.task_id →
      old.mark_cancelled ∈ (s.submit_task t).graph.tasks) ∧
    (∀ ts : List Task, (∀ u ∈ ts, u.status = TaskStatus.pending) →
      ∀ pre : List Task, pre <+: ts →
        ∀ d, (d = "navigation" ∨ d = "music") →
          countNonCancelled
            ((pre.foldl TaskScheduler.submit_task {}).graph.tasks) d ≤ 1) := by
  constructor
  · exact submit_cancels_incumbent
  · intro ts hts pre hpre d hd
    apply submit_fold_inv pre {}
    · exact List.nodup_nil
    · intro u hu
      cases hu
    · intro d' _
      exact Nat.zero_le 1
    · intro u hu
      exact hts u (hpre.subset hu)
    · exact hd

/-- Witness for C4 at a concrete input: submitting two pending navigation
tasks in sequence cancels the first, and every step keeps at most one
non-cancelled navigation task. -/
theorem C4_domain_exclusivity_witness :
    (navTask1.mark_cancelled ∈
      ((TaskScheduler.submit_task {} navTask1).submit_task navTask2).graph.tasks) ∧
    countNonCancelled
      (([navTask1, navTask2].foldl TaskScheduler.submit_task {}).graph.tasks)
      "navigation" ≤ 1 :=
  ⟨C4_domain_exclusivity.1 (TaskScheduler.submit_task {} navTask1) navTask2 navTask1
      (Or.inl rfl) (by decide) rfl (Or.inl rfl) (by decide),
   C4_domain_exclusivity.2 [navTask1, navTask2] (by decide)
      [navTask1, navTask2] (List.prefix_refl _) "navigation" (Or.inl rfl)⟩

theorem except_ok_bind {α β : Type} (a : α) (k : α → Except String β) :
    (Except.ok a >>= k) = k a := rfl

/-- C2: when the Safety Gate judges the primary classified intent unsafe,
the dispatcher returns the fixed blocked response immediately — content is
the blocked-operation marker followed by the reason, `safety_blocked` is
set in the metadata — and the task list is empty: no task graph is built
and zero tasks are created or executed. The memory recording steps the
code performs before returning are assumed to succeed. -/
theorem C2_unsafe_primary_intent_blocks (cfg : SafetyChecker) (threshold : ℚ)
    (handlers : Handlers) (mkId : Nat → String) (mem : MemoryOracle)
    (llm : Option LLMOracle)
    (extractSlots : String → IntentType → List (String × String))
    (input ds : String)
    (h1 : mem.addUserMessage input = .ok ())
    (hblocked : (cfg.check (IntentParser.parse llm extractSlots input) ds).is_safe = false)
    (h2 : mem.addAssistantMessage (blockedResponse
      (cfg.check (IntentParser.parse llm extractSlots input) ds).blocked_reason).content =
      .ok ()) :
    AgentDispatcher.process cfg threshold handlers mkId mem llm extractSlots input ds =
      .ok (blockedResponse
        (cfg.check (IntentParser.parse llm extractSlots input) ds).blocked_reason, []) ∧
    (blockedResponse
      (cfg.check (IntentParser.parse llm extractSlots input) ds).blocked_reason).content =
      "操作被阻止: " ++
        (cfg.check (IntentParser.parse llm extractSlots input) ds).blocked_reason ∧
    (blockedResponse
      (cfg.check (IntentParser.parse llm extractSlots input) ds).blocked_reason).metadata =
      [("safety_blocked", MetaVal.bool true)] := by
  refine ⟨?_, rfl, rfl⟩
  unfold AgentDispatcher.process
  rw [h1, except_ok_bind]
  simp only [hblocked, Bool.false_eq_true, not_false_eq_true, if_true]
  rw [h2, except_ok_bind]
  rfl

/-- Witness for C2 at a concrete input: `导航到天安门` parses to NAVIGATE_TO
with confidence 1; with `navigate_to` blocked while driving the dispatcher
returns the blocked response and creates zero tasks. -/
theorem C2_unsafe_primary_intent_blocks_witness :
    okMemOracle.addUserMessage "导航到天安门" = .ok () ∧
    ((SafetyChecker.mk ["navigate_to"] []).check
      (IntentParser.parse none (fun _ _ => []) "导航到天安门") "driving").is_safe = false ∧
    AgentDispatcher.process (SafetyChecker.mk ["navigate_to"] []) (3/5)
        defaultHandlers unaryId okMemOracle none (fun _ _ => []) "导航到天安门" "driving" =
      .ok (blockedResponse
        ((SafetyChecker.mk ["navigate_to"] []).check
          (IntentParser.parse none (fun _ _ => []) "导航到天安门")
          "driving").blocked_reason, []) :=
  ⟨rfl, by decide,
   (C2_unsafe_primary_intent_blocks (SafetyChecker.mk ["navigate_to"] []) (3/5)
     defaultHandlers unaryId okMemOracle none (fun _ _ => []) "导航到天安门" "driving"
     rfl (by decide) rfl).1⟩

/-- C6 counterexample: the claim quantifies over every behaviour of the
collaborators including failure, but the dispatcher's calls to the memory
collaborator are not guarded by any `try/except`; a raising
`add_user_message` propagates out of `AgentDispatcher.process` instead of
producing an `AgentResponse`. -/
theorem C6_counterexample :
    AgentDispatcher.process (SafetyChecker.mk [] []) (3/5) defaultHandlers
      unaryId failingMemOracle none (fun _ _ => []) "导航到天安门" "parked" =
      .error "memory down" := rfl

/-- C6 (amended): for every utterance, every driving_state, and every
behaviour of the LLM collaborator including failure, provided the memory
collaborator's operations succeed, `AgentDispatcher.process` terminates in
a well-formed `AgentResponse`; a raising memory operation, by contrast,
propagates to the caller. -/
theorem C6_total_when_memory_ok (cfg : SafetyChecker) (threshold : ℚ)
    (handlers : Handlers) (mkId : Nat → String) (mem : MemoryOracle)
    (llm : Option LLMOracle)
    (extractSlots : String → IntentType → List (String × String))
    (input ds : String)
    (hmu : ∀ s, mem.addUserMessage s = .ok ())
    (hma : ∀ s, mem.addAssistantMessage s = .ok ())
    (hgc : mem.getContext = .ok ()) :
    ∃ resp tasks,
      AgentDispatcher.process cfg threshold handlers mkId mem llm extractSlots input ds =
        .ok (resp, tasks) := by
  unfold AgentDispatcher.process
  rw [hmu, except_ok_bind]
  cases hs : (cfg.check (IntentParser.parse llm extractSlots input) ds).is_safe with
  | false =>
    simp only [hs, Bool.false_eq_true, not_false_eq_true, if_true]
    rw [hma, except_ok_bind]
    exact ⟨_, _, rfl⟩
  | true =>
    simp only [hs, not_true_eq_false, if_false]
    rw [hgc, except_ok_bind, hma, except_ok_bind]
    exact ⟨_, _, rfl⟩

/-- Witness for C6 (amended) at a concrete input: with an all-succeeding
memory collaborator and a failing LLM collaborator the dispatcher still
returns a response. -/
theorem C6_total_when_memory_ok_witness :
    okMemOracle.getContext = .ok () ∧
    ∃ resp tasks,
      AgentDispatcher.process (SafetyChecker.mk [] []) (3/5) defaultHandlers
        unaryId okMemOracle
        (some { parseResult := .error "llm down", cotResult := .error "llm down" })
        (fun _ _ => []) "你好" "parked" = .ok (resp, tasks) :=
  ⟨rfl,
   C6_total_when_memory_ok (SafetyChecker.mk [] []) (3/5) defaultHandlers
     unaryId okMemOracle
     (some { parseResult := .error "llm down", cotResult := .error "llm down" })
     (fun _ _ => []) "你好" "parked" (fun _ => rfl) (fun _ => rfl) rfl⟩

theorem marker_not_in_blockedReason (it : IntentType) :
    strContains (blockedReasonFor it.value) "需要确认" = false := by
  cases it <;> decide

theorem marker_not_in_check_reason (cfg : SafetyChecker) (intent : ParsedIntent)
    (ds : String) :
    strContains (cfg.check intent ds).blocked_reason "需要确认" = false := by
  unfold SafetyChecker.check
  repeat' split
  all_goals first
    | exact marker_not_in_blockedReason intent.intent_type
    | rfl

theorem planBuildTask_ErrOk (checker : Option SafetyChecker) (mkId : Nat → String)
    (input ds : String) (i : Nat) (d : IntentData) :
    ErrOk (planBuildTask checker mkId input ds i d) := by
  unfold ErrOk planBuildTask
  cases checker with
  | none =>
    intro e he
    exact absurd he (by simp [TaskExecutor.intent_to_task])
  | some cfg =>
    simp only
    split
    · intro e he
      exact absurd he (by simp [TaskExecutor.intent_to_task])
    · intro e he
      simp only [Option.some.injEq] at he
      rw [← he]
      exact marker_not_in_check_reason cfg _ ds

theorem mem_addTask (G : TaskGraph) (t u : Task) :
    u ∈ (G.add_task t).tasks → u ∈ G.tasks ∨ u = t := by
  unfold TaskGraph.add_task
  split
  · intro hu
    rcases List.mem_map.mp hu with ⟨v, hv, he⟩
    by_cases h : v.task_id = t.task_id
    · rw [if_pos h] at he
      exact Or.inr he.symm
    · rw [if_neg h] at he
      exact Or.inl (he ▸ hv)
  · intro hu
    rcases List.mem_append.mp hu with h | h
    · exact Or.inl h
    · exact Or.inr (List.mem_singleton.mp h)

theorem mem_foldl_addTask (ts : List Task) (G : TaskGraph) (u : Task) :
    u ∈ (ts.foldl TaskGraph.add_task G).tasks → u ∈ G.tasks ∨ u ∈ ts := by
  induction ts generalizing G with
  | nil => exact fun h => Or.inl h
  | cons t rest ih =>
    intro hu
    rcases ih (G.add_task t) hu with h | h
    · rcases mem_addTask G t u h with h' | h'
      · exact Or.inl h'
      · exact Or.inr (h' ▸ List.mem_cons_self _ _)
    · exact Or.inr (List.mem_cons_of_mem _ h)

theorem ErrOk_addDep (G : TaskGraph) (a b : String)
    (h : ∀ v ∈ G.tasks, ErrOk v) :
    ∀ u ∈ (G.add_dependency a b).tasks, ErrOk u := by
  unfold TaskGraph.add_dependency
  split
  · intro u hu
    rcases List.mem_map.mp hu with ⟨v, hv, he⟩
    split at he
    · intro e hee
      exact h v hv e (by rw [← he] at hee; exact hee)
    · exact he ▸ h v hv
  · exact h

theorem ErrOk_depFold (sids : List String) (G : TaskGraph) (tid : String)
    (h : ∀ v ∈ G.tasks, ErrOk v) :
    ∀ u ∈ (sids.foldl (fun G sid => G.add_dependency tid sid) G).tasks, ErrOk u := by
  induction sids generalizing G with
  | nil => exact h
  | cons s rest ih =>
    exact ih (G.add_dependency tid s) (ErrOk_addDep G tid s h)

theorem ErrOk_depPhase (ts : List Task) (sids : List String) (G : TaskGraph)
    (h : ∀ v ∈ G.tasks, ErrOk v) :
    ∀ u ∈ (ts.foldl (fun G t =>
        if t.domain ≠ "safety" ∧ sids ≠ [] then
          sids.foldl (fun G sid => G.add_dependency t.task_id sid) G
        else G) G).tasks, ErrOk u := by
  induction ts generalizing G with
  | nil => exact h
  | cons t rest ih =>
    simp only [List.foldl_cons]
    apply ih
    split
    · exact ErrOk_depFold sids G t.task_id h
    · exact h

theorem ErrOk_completeTask (G : TaskGraph) (tid : String) (r : Option ExecResult)
    (h : ∀ v ∈ G.tasks, ErrOk v) :
    ∀ u ∈ (G.complete_task tid r).tasks, ErrOk u := by
  unfold TaskGraph.complete_task
  split
  · intro u hu
    rcases List.mem_map.mp hu with ⟨v, hv, he⟩
    split at he
    · intro e hee
      exact h v hv e (by rw [← he] at hee; exact hee)
    · exact he ▸ h v hv
  · exact h

theorem ErrOk_failTask (G : TaskGraph) (tid e0 : String)
    (he0 : strContains e0 "需要确认" = false)
    (h : ∀ v ∈ G.tasks, ErrOk v) :
    ∀ u ∈ (G.fail_task tid e0).tasks, ErrOk u := by
  unfold TaskGraph.fail_task
  split
  · intro u hu
    rcases List.mem_map.mp hu with ⟨v, hv, he⟩
    unfold TaskGraph.failStep at he
    split at he
    · intro e hee
      rw [← he] at hee
      simp only [Task.mark_failed, Option.some.injEq] at hee
      rw [← hee]
      exact he0
    · split at he
      · intro e hee
        exact h v hv e (by rw [← he] at hee; exact hee)
      · exact he ▸ h v hv
  · exact h

theorem execute_error_marker_free (handlers : Handlers)
    (hh : ∀ a h t e, handlers a = some h → h t = Except.error e →
      strContains e "需要确认" = false)
    (t : Task) (e : String) (he : TaskExecutor.execute handlers t = .error e) :
    strContains e "需要确认" = false := by
  unfold TaskExecutor.execute at he
  cases hha : handlers t.action with
  | some h => exact hh t.action h t e hha (by rw [hha] at he; exact he)
  | none => rw [hha] at he; cases he

theorem planExecStep_ErrOk (handlers : Handlers)
    (hh : ∀ a h t e, handlers a = some h → h t = Except.error e →
      strContains e "需要确认" = false)
    (st : TaskGraph × List ExecResult) (tid : String)
    (h : ∀ v ∈ st.1.tasks, ErrOk v) :
    ∀ u ∈ (planExecStep handlers st tid).1.tasks, ErrOk u := by
  unfold planExecStep
  cases hft : TaskGraph.findTask st.1.tasks tid with
  | none => exact h
  | some task =>
    simp only
    split
    · cases hex : TaskExecutor.execute handlers task with
      | ok r => exact ErrOk_completeTask st.1 tid (some r) h
      | error e =>
        exact ErrOk_failTask st.1 tid e
          (execute_error_marker_free handlers hh task e hex) h
    · exact h

theorem waveFold_ErrOk (handlers : Handlers)
    (hh : ∀ a h t e, handlers a = some h → h t = Except.error e →
      strContains e "需要确认" = false)
    (waves : List (List String)) (st : TaskGraph × List ExecResult)
    (h : ∀ v ∈ st.1.tasks, ErrOk v) :
    ∀ u ∈ ((waves.foldl (fun st wave =>
      wave.foldl (planExecStep handlers) st) st).1).tasks, ErrOk u := by
  induction waves generalizing st with
  | nil => exact h
  | cons wave rest ih =>
    simp only [List.foldl_cons]
    apply ih
    clear ih
    induction wave generalizing st with
    | nil => exact h
    | cons tid wrest ihw =>
      simp only [List.foldl_cons]
      exact ihw (planExecStep handlers st tid) (planExecStep_ErrOk handlers hh st tid h)

theorem taskNeedsConfirmation_false_of_ErrOk (u : Task) (h : ErrOk u) :
    taskNeedsConfirmation u = false := by
  unfold taskNeedsConfirmation
  cases he : u.error with
  | none => rfl
  | some e =>
    simp only
    rw [h e he]
    exact Bool.and_false _

/-- C7: whenever no task handler raises an exception whose text contains
the confirmation marker `需要确认`, the response of
`PlanExecuteAgent.process` has `requires_confirmation = false` — even when
the safety gate returned a confirmation-required verdict for a sub-intent,
because only unsafe (blocked) verdicts write a task's error field, blocked
reasons never contain the marker, and confirmation verdicts are safe
verdicts that leave the error unset. The id oracle is assumed injective,
matching distinct uuid-generated task ids. -/
theorem C7_no_confirmation_without_marker (checker : Option SafetyChecker)
    (handlers : Handlers) (mkId : Nat → String)
    (hinj : ∀ i j, mkId i = mkId j → i = j)
    (hh : ∀ a h t e, handlers a = some h → h t = Except.error e →
      strContains e "需要确认" = false)
    (input : String) (ctx : AgentContext) :
    (PlanExecuteAgent.process checker handlers mkId input ctx).1.requires_confirmation =
      false := by
  unfold PlanExecuteAgent.process
  by_cases hir : ctx.intentResults = []
  · rw [if_pos hir]
  · rw [if_neg hir]
    simp only
    apply List.any_eq_false.mpr
    intro u hu
    rw [Bool.not_eq_true]
    apply taskNeedsConfirmation_false_of_ErrOk
    refine waveFold_ErrOk handlers hh _ _ ?_ u hu
    apply ErrOk_depPhase
    intro v hv
    rcases mem_foldl_addTask _ _ v hv with h | h
    · exact absurd h (List.not_mem_nil v)
    · rcases List.mem_map.mp h with ⟨p, _, he⟩
      exact he ▸ planBuildTask_ErrOk checker mkId input ctx.drivingState p.1 p.2

/-- Witness for C7 at a concrete input: an EMERGENCY_CALL sub-intent, for
which the safety gate returns a confirmation-required (safe) verdict, and
the default handler registry, which never raises; the response still has
`requires_confirmation = false`. -/
theorem C7_no_confirmation_without_marker_witness :
    ((SafetyChecker.mk [] []).check (planIntentOf "SOS"
      { type := "emergency_call", confidence := 1, slots := [] })
      "parked").requires_confirmation = true ∧
    (PlanExecuteAgent.process (some (SafetyChecker.mk [] [])) defaultHandlers
      unaryId "SOS"
      { intentResults := [{ type := "emergency_call", confidence := 1, slots := [] }]
        drivingState := "parked" }).1.requires_confirmation = false :=
  ⟨by decide,
   C7_no_confirmation_without_marker (some (SafetyChecker.mk [] []))
     defaultHandlers unaryId
     (fun i j hij => by
       have := congrArg (fun s => s.data.length) hij
       simpa [unaryId] using this)
     (fun a h t e ha he => by
       unfold defaultHandlers at ha
       split_ifs at ha
       all_goals cases ha
       all_goals exact Except.noConfusion he)
     "SOS"
     { intentResults := [{ type := "emergency_call", confidence := 1, slots := [] }]
       drivingState := "parked" }⟩

theorem execWavesAux_eq (g : List Task) (c r : List String) :
    TaskGraph.execWavesAux g c r =
      if r.filter (TaskGraph.waveReady g c) = [] then []
      else TaskGraph.sortWave g (r.filter (TaskGraph.waveReady g c)) ::
        TaskGraph.execWavesAux g (c ++ r.filter (TaskGraph.waveReady g c))
          (r.filter (fun tid => decide (tid ∉ r.filter (TaskGraph.waveReady g c)))) := by
  rw [TaskGraph.execWavesAux]
  by_cases h : r.filter (TaskGraph.waveReady g c) = []
  · rw [dif_pos h, if_pos h]
  · rw [dif_neg h, if_neg h]

theorem mem_sortWave (g : List Task) (w : List String) (x : String) :
    x ∈ TaskGraph.sortWave g w ↔ x ∈ w :=
  (List.perm_insertionSort _ w).mem_iff

theorem execAux_rest_length_lt (g : List Task) (c r : List String)
    (hw : r.filter (TaskGraph.waveReady g c) ≠ []) :
    (r.filter (fun tid =>
      decide (tid ∉ r.filter (TaskGraph.waveReady g c)))).length < r.length := by
  rcases List.exists_mem_of_ne_nil _ hw with ⟨x, hx⟩
  refine List.length_filter_lt_length_iff_exists.mpr
    ⟨x, List.mem_of_mem_filter hx, ?_⟩
  simp only [decide_eq_true_eq]
  exact not_not_intro hx

theorem mem_flatten_take {α : Type} (l : List (List α)) (n : Nat) (x : α) :
    x ∈ (l.take n).flatten ↔ ∃ j w, j < n ∧ l.get? j = some w ∧ x ∈ w := by
  induction l generalizing n with
  | nil =>
    simp only [List.take_nil, List.flatten_nil, List.not_mem_nil, false_iff]
    rintro ⟨j, w, _, hj, _⟩
    rw [List.get?_nil] at hj
    cases hj
  | cons w0 rest ih =>
    cases n with
    | zero =>
      simp only [List.take_zero, List.flatten_nil, List.not_mem_nil, false_iff]
      rintro ⟨j, w, hj, _, _⟩
      cases hj
    | succ m =>
      simp only [List.take_succ_cons, List.flatten_cons, List.mem_append]
      constructor
      · rintro (h | h)
        · exact ⟨0, w0, Nat.succ_pos m, rfl, h⟩
        · rcases (ih m).mp h with ⟨j, w, hjm, hget, hxw⟩
          exact ⟨j + 1, w, Nat.succ_lt_succ hjm, hget, hxw⟩
      · rintro ⟨j, w, hjm, hget, hxw⟩
        cases j with
        | zero =>
          rw [List.get?_cons_zero] at hget
          exact Or.inl (by rw [← Option.some.inj hget] at hxw; exact hxw)
        | succ j' =>
          rw [List.get?_cons_succ] at hget
          exact Or.inr ((ih m).mpr ⟨j', w, Nat.lt_of_succ_lt_succ hjm, hget, hxw⟩)

theorem exists_min_rank (l : List String) (hne : l ≠ []) (rank : String → Nat) :
    ∃ m ∈ l, ∀ y ∈ l, rank m ≤ rank y := by
  induction l with
  | nil => exact absurd rfl hne
  | cons a rest ih =>
    by_cases hr : rest = []
    · subst hr
      refine ⟨a, List.mem_cons_self _ _, ?_⟩
      intro y hy
      rcases List.mem_cons.mp hy with rfl | hy'
      · exact le_refl _
      · cases hy'
    · rcases ih hr with ⟨m, hm, hmin⟩
      by_cases hcmp : rank a ≤ rank m
      · refine ⟨a, List.mem_cons_self _ _, ?_⟩
        intro y hy
        rcases List.mem_cons.mp hy with rfl | hy'
        · exact le_refl _
        · exact le_trans hcmp (hmin y hy')
      · refine ⟨m, List.mem_cons_of_mem _ hm, ?_⟩
        intro y hy
        rcases List.mem_cons.mp hy with rfl | hy'
        · exact le_of_lt (lt_of_not_le hcmp)
        · exact hmin y hy'

theorem findTask_eq_of_nodup (g : List Task) (t : Task)
    (hnd : (g.map Task.task_id).Nodup) (ht : t ∈ g) :
    TaskGraph.findTask g t.task_id = some t := by
  induction g with
  | nil => cases ht
  | cons u rest ih =>
    rcases List.mem_cons.mp ht with rfl | ht'
    · unfold TaskGraph.findTask
      rw [List.find?_cons_of_pos _ (by rw [beq_iff_eq])]
    · simp only [List.map_cons, List.nodup_cons] at hnd
      have hne : u.task_id ≠ t.task_id := by
        intro he
        exact hnd.1 (he ▸ List.mem_map_of_mem Task.task_id ht')
      unfold TaskGraph.findTask
      rw [List.find?_cons_of_neg _ (by rw [beq_iff_eq]; exact hne)]
      exact ih hnd.2 ht'

theorem execWavesAux_subset (g : List Task) (n : Nat) :
    ∀ (c r : List String), r.length ≤ n → ∀ i w x,
      (TaskGraph.execWavesAux g c r).get? i = some w → x ∈ w → x ∈ r := by
  induction n with
  | zero =>
    intro c r hr i w x hget hx
    have hr0 : r = [] := List.length_eq_zero.mp (Nat.le_zero.mp hr)
    subst hr0
    rw [execWavesAux_eq, if_pos (by simp), List.get?_nil] at hget
    cases hget
  | succ m ih =>
    intro c r hr i w x hget hx
    rw [execWavesAux_eq] at hget
    by_cases hw : r.filter (TaskGraph.waveReady g c) = []
    · rw [if_pos hw, List.get?_nil] at hget
      cases hget
    · rw [if_neg hw] at hget
      cases i with
      | zero =>
        rw [List.get?_cons_zero] at hget
        rw [← Option.some.inj hget, mem_sortWave] at hx
        exact List.mem_of_mem_filter hx
      | succ i' =>
        rw [List.get?_cons_succ] at hget
        have hle := Nat.lt_succ_iff.mp
          (Nat.lt_of_lt_of_le (execAux_rest_length_lt g c r hw) hr)
        exact List.mem_of_mem_filter (ih _ _ hle i' w x hget hx)

theorem execWavesAux_unique (g : List Task) (n : Nat) :
    ∀ (c r : List String), r.length ≤ n → ∀ i j w w' x,
      (TaskGraph.execWavesAux g c r).get? i = some w →
      (TaskGraph.execWavesAux g c r).get? j = some w' →
      x ∈ w → x ∈ w' → i = j := by
  induction n with
  | zero =>
    intro c r hr i j w w' x hgi _ _ _
    have hr0 : r = [] := List.length_eq_zero.mp (Nat.le_zero.mp hr)
    subst hr0
    rw [execWavesAux_eq, if_pos (by simp), List.get?_nil] at hgi
    cases hgi
  | succ m ih =>
    intro c r hr i j w w' x hgi hgj hxi hxj
    rw [execWavesAux_eq] at hgi hgj
    by_cases hw : r.filter (TaskGraph.waveReady g c) = []
    · rw [if_pos hw, List.get?_nil] at hgi
      cases hgi
    · rw [if_neg hw] at hgi hgj
      have hle := Nat.lt_succ_iff.mp
        (Nat.lt_of_lt_of_le (execAux_rest_length_lt g c r hw) hr)
      cases i with
      | zero =>
        cases j with
        | zero => rfl
        | succ j' =>
          exfalso
          rw [List.get?_cons_zero] at hgi
          rw [List.get?_cons_succ] at hgj
          rw [← Option.some.inj hgi, mem_sortWave] at hxi
          have hxr' := execWavesAux_subset g m _ _ hle j' w' x hgj hxj
          have := (List.mem_filter.mp hxr').2
          simp only [decide_eq_true_eq] at this
          exact this hxi
      | succ i' =>
        cases j with
        | zero =>
          exfalso
          rw [List.get?_cons_zero] at hgj
          rw [List.get?_cons_succ] at hgi
          rw [← Option.some.inj hgj, mem_sortWave] at hxj
          have hxr' := execWavesAux_subset g m _ _ hle i' w x hgi hxi
          have := (List.mem_filter.mp hxr').2
          simp only [decide_eq_true_eq] at this
          exact this hxj
        | succ j' =>
          rw [List.get?_cons_succ] at hgi hgj
          exact congrArg Nat.succ (ih _ _ hle i' j' w w' x hgi hgj hxi hxj)

theorem execWavesAux_placement (g : List Task) (n : Nat) :
    ∀ (c r : List String), r.length ≤ n → ∀ i w x,
      (TaskGraph.execWavesAux g c r).get? i = some w → x ∈ w →
      ∀ d ∈ TaskGraph.depsOf g x,
        d ∈ completedUpTo c (TaskGraph.execWavesAux g c r) i := by
  induction n with
  | zero =>
    intro c r hr i w x hget _
    have hr0 : r = [] := List.length_eq_zero.mp (Nat.le_zero.mp hr)
    subst hr0
    rw [execWavesAux_eq, if_pos (by simp), List.get?_nil] at hget
    cases hget
  | succ m ih =>
    intro c r hr i w x hget hx d hd
    rw [execWavesAux_eq] at hget ⊢
    by_cases hw : r.filter (TaskGraph.waveReady g c) = []
    · rw [if_pos hw, List.get?_nil] at hget
      cases hget
    · rw [if_neg hw] at hget ⊢
      have hle := Nat.lt_succ_iff.mp
        (Nat.lt_of_lt_of_le (execAux_rest_length_lt g c r hw) hr)
      cases i with
      | zero =>
        rw [List.get?_cons_zero] at hget
        rw [← Option.some.inj hget, mem_sortWave] at hx
        have hready := (List.mem_filter.mp hx).2
        unfold TaskGraph.waveReady at hready
        rw [List.all_eq_true] at hready
        have := hready d hd
        simp only [decide_eq_true_eq] at this
        simp only [completedUpTo, List.take_zero, List.flatten_nil,
          List.append_nil]
        exact this
      | succ i' =>
        rw [List.get?_cons_succ] at hget
        have := ih _ _ hle i' w x hget hx d hd
        simp only [completedUpTo, List.take_succ_cons, List.flatten_cons,
          List.mem_append, mem_sortWave] at this ⊢
        tauto

theorem execWavesAux_greedy (g : List Task) (n : Nat) :
    ∀ (c r : List String), r.length ≤ n → ∀ i w x,
      (TaskGraph.execWavesAux g c r).get? (i + 1) = some w → x ∈ w →
      ∃ d ∈ TaskGraph.depsOf g x,
        d ∉ completedUpTo c (TaskGraph.execWavesAux g c r) i := by
  induction n with
  | zero =>
    intro c r hr i w x hget _
    have hr0 : r = [] := List.length_eq_zero.mp (Nat.le_zero.mp hr)
    subst hr0
    rw [execWavesAux_eq, if_pos (by simp), List.get?_nil] at hget
    cases hget
  | succ m ih =>
    intro c r hr i w x hget hx
    rw [execWavesAux_eq] at hget ⊢
    by_cases hw : r.filter (TaskGraph.waveReady g c) = []
    · rw [if_pos hw, List.get?_nil] at hget
      cases hget
    · rw [if_neg hw] at hget ⊢
      have hle := Nat.lt_succ_iff.mp
        (Nat.lt_of_lt_of_le (execAux_rest_length_lt g c r hw) hr)
      rw [List.get?_cons_succ] at hget
      cases i with
      | zero =>
        have hxr' := execWavesAux_subset g m _ _ hle 0 w x hget hx
        have hxr := List.mem_of_mem_filter hxr'
        have hnw := (List.mem_filter.mp hxr').2
        simp only [decide_eq_true_eq] at hnw
        have hnready : TaskGraph.waveReady g c x = false := by
          cases hwr : TaskGraph.waveReady g c x with
          | false => rfl
          | true => exact absurd (List.mem_filter.mpr ⟨hxr, hwr⟩) hnw
        unfold TaskGraph.waveReady at hnready
        have hnall : ¬ ∀ d ∈ TaskGraph.depsOf g x, decide (d ∈ c) = true := by
          intro hall
          rw [List.all_eq_true.mpr hall] at hnready
          cases hnready
        push_neg at hnall
        rcases hnall with ⟨d, hd, hdc⟩
        refine ⟨d, hd, ?_⟩
        simp only [completedUpTo, List.take_zero, List.flatten_nil,
          List.append_nil]
        intro hmem
        exact hdc (by simpa using hmem)
      | succ i' =>
        rcases ih _ _ hle i' w x hget hx with ⟨d, hd, hnot⟩
        refine ⟨d, hd, ?_⟩
        intro hmem
        apply hnot
        simp only [completedUpTo, List.take_succ_cons, List.flatten_cons,
          List.mem_append, mem_sortWave] at hmem ⊢
        tauto

theorem execWavesAux_complete (g : List Task) (n : Nat) :
    ∀ (c r : List String), r.length ≤ n →
      (∀ x ∈ r, ∀ d ∈ TaskGraph.depsOf g x, d ∈ c ∨ d ∈ r) →
      ∀ (rank : String → Nat),
        (∀ x ∈ r, ∀ d ∈ TaskGraph.depsOf g x, d ∈ r → rank d < rank x) →
      ∀ x ∈ r, ∃ i w, (TaskGraph.execWavesAux g c r).get? i = some w ∧ x ∈ w := by
  induction n with
  | zero =>
    intro c r hr _ _ _ x hx
    have hr0 : r = [] := List.length_eq_zero.mp (Nat.le_zero.mp hr)
    subst hr0
    cases hx
  | succ m ih =>
    intro c r hr hclosed rank hrank x hx
    have hrne : r ≠ [] := List.ne_nil_of_mem hx
    have hwne : r.filter (TaskGraph.waveReady g c) ≠ [] := by
      rcases exists_min_rank r hrne rank with ⟨mm, hmm, hminimal⟩
      have hmready : TaskGraph.waveReady g c mm = true := by
        unfold TaskGraph.waveReady
        rw [List.all_eq_true]
        intro d hd
        rcases hclosed mm hmm d hd with hc | hrr
        · simpa using hc
        · exact absurd (hminimal d hrr) (Nat.not_le.mpr (hrank mm hmm d hd hrr))
      exact List.ne_nil_of_mem (List.mem_filter.mpr ⟨hmm, hmready⟩)
    rw [execWavesAux_eq, if_neg hwne]
    by_cases hxw : x ∈ r.filter (TaskGraph.waveReady g c)
    · exact ⟨0, _, List.get?_cons_zero, (mem_sortWave g _ x).mpr hxw⟩
    · have hle := Nat.lt_succ_iff.mp
        (Nat.lt_of_lt_of_le (execAux_rest_length_lt g c r hwne) hr)
      have hxr' : x ∈ r.filter (fun tid =>
          decide (tid ∉ r.filter (TaskGraph.waveReady g c))) :=
        List.mem_filter.mpr ⟨hx, by simp only [decide_eq_true_eq]; exact hxw⟩
      have hclosed' : ∀ y ∈ r.filter (fun tid =>
          decide (tid ∉ r.filter (TaskGraph.waveReady g c))),
          ∀ d ∈ TaskGraph.depsOf g y,
            d ∈ c ++ r.filter (TaskGraph.waveReady g c) ∨
            d ∈ r.filter (fun tid =>
              decide (tid ∉ r.filter (TaskGraph.waveReady g c))) := by
        intro y hy d hd
        rcases hclosed y (List.mem_of_mem_filter hy) d hd with hc | hrr
        · exact Or.inl (List.mem_append_left _ hc)
        · by_cases hdw : d ∈ r.filter (TaskGraph.waveReady g c)
          · exact Or.inl (List.mem_append_right _ hdw)
          · exact Or.inr (List.mem_filter.mpr
              ⟨hrr, by simp only [decide_eq_true_eq]; exact hdw⟩)
      have hrank' : ∀ y ∈ r.filter (fun tid =>
          decide (tid ∉ r.filter (TaskGraph.waveReady g c))),
          ∀ d ∈ TaskGraph.depsOf g y,
            d ∈ r.filter (fun tid =>
              decide (tid ∉ r.filter (TaskGraph.waveReady g c))) →
            rank d < rank y := by
        intro y hy d hd hdr
        exact hrank y (List.mem_of_mem_filter hy) d hd (List.mem_of_mem_filter hdr)
      rcases ih _ _ hle hclosed' rank hrank' x hxr' with ⟨i, w, hget, hxin⟩
      exact ⟨i + 1, w, by rw [List.get?_cons_succ]; exact hget, hxin⟩

theorem get_execution_order_eq_aux (G : TaskGraph)
    (hterm : ∀ t ∈ G.tasks,
      t.status ≠ TaskStatus.cancelled ∧ t.status ≠ TaskStatus.failed) :
    G.get_execution_order =
      TaskGraph.execWavesAux G.tasks [] (G.tasks.map Task.task_id) := by
  unfold TaskGraph.get_execution_order
  have hf : G.tasks.filter (fun t =>
      decide (¬(t.status = TaskStatus.cancelled ∨ t.status = TaskStatus.failed))) =
      G.tasks := by
    rw [List.filter_eq_self]
    intro t ht
    simp only [decide_eq_true_eq]
    rintro (h | h)
    · exact (hterm t ht).1 h
    · exact (hterm t ht).2 h
  rw [hf]

theorem depsOf_eq_dependencies (g : List Task) (t : Task)
    (hnd : (g.map Task.task_id).Nodup) (ht : t ∈ g) :
    TaskGraph.depsOf g t.task_id = t.dependencies := by
  unfold TaskGraph.depsOf
  rw [findTask_eq_of_nodup g t hnd ht]
  rfl

/-- C5: over a graph with unique task ids, all tasks non-terminal (not
cancelled or failed), dependencies closed within the graph, and an acyclic
dependency relation (witnessed by a rank function decreasing along
dependency edges), `get_execution_order` (i) assigns every task to exactly
one wave, (ii) places a dependency strictly before its dependent, and
(iii) places two tasks whose only dependency is the same prerequisite in
the same wave. -/
theorem C5_execution_waves (G : TaskGraph)
    (hnd : (G.tasks.map Task.task_id).Nodup)
    (hterm : ∀ t ∈ G.tasks,
      t.status ≠ TaskStatus.cancelled ∧ t.status ≠ TaskStatus.failed)
    (hclosed : ∀ t ∈ G.tasks, ∀ d ∈ t.dependencies, ∃ u ∈ G.tasks, u.task_id = d)
    (rank : String → Nat)
    (hrank : ∀ t ∈ G.tasks, ∀ d ∈ t.dependencies, rank d < rank t.task_id) :
    (∀ t ∈ G.tasks, ∃ i,
      (∃ w, G.get_execution_order.get? i = some w ∧ t.task_id ∈ w) ∧
      ∀ j w', G.get_execution_order.get? j = some w' → t.task_id ∈ w' → j = i) ∧
    (∀ A B, A ∈ G.tasks → B ∈ G.tasks → A.task_id ∈ B.dependencies →
      ∀ i j wA wB, G.get_execution_order.get? i = some wA → A.task_id ∈ wA →
        G.get_execution_order.get? j = some wB → B.task_id ∈ wB → i < j) ∧
    (∀ A B C, A ∈ G.tasks → B ∈ G.tasks → C ∈ G.tasks →
      (∀ d, d ∈ B.dependencies ↔ d = A.task_id) →
      (∀ d, d ∈ C.dependencies ↔ d = A.task_id) →
      ∀ i j wB wC, G.get_execution_order.get? i = some wB → B.task_id ∈ wB →
        G.get_execution_order.get? j = some wC → C.task_id ∈ wC → i = j) := by
  have hWeq := get_execution_order_eq_aux G hterm
  have hdeps : ∀ t ∈ G.tasks,
      TaskGraph.depsOf G.tasks t.task_id = t.dependencies :=
    fun t ht => depsOf_eq_dependencies G.tasks t hnd ht
  have hclosedR : ∀ x ∈ G.tasks.map Task.task_id,
      ∀ d ∈ TaskGraph.depsOf G.tasks x, d ∈ ([] : List String) ∨
        d ∈ G.tasks.map Task.task_id := by
    intro x hxR d hd
    rcases List.mem_map.mp hxR with ⟨t, ht, rfl⟩
    rw [hdeps t ht] at hd
    rcases hclosed t ht d hd with ⟨u, hu, hud⟩
    exact Or.inr (hud ▸ List.mem_map_of_mem _ hu)
  have hrankR : ∀ x ∈ G.tasks.map Task.task_id,
      ∀ d ∈ TaskGraph.depsOf G.tasks x, d ∈ G.tasks.map Task.task_id →
        rank d < rank x := by
    intro x hxR d hd _
    rcases List.mem_map.mp hxR with ⟨t, ht, rfl⟩
    rw [hdeps t ht] at hd
    exact hrank t ht d hd
  have hn : (G.tasks.map Task.task_id).length ≤ (G.tasks.map Task.task_id).length :=
    le_refl _
  have huniq := execWavesAux_unique G.tasks (G.tasks.map Task.task_id).length
    [] (G.tasks.map Task.task_id) hn
  have hplace := execWavesAux_placement G.tasks (G.tasks.map Task.task_id).length
    [] (G.tasks.map Task.task_id) hn
  have hgreedy := execWavesAux_greedy G.tasks (G.tasks.map Task.task_id).length
    [] (G.tasks.map Task.task_id) hn
  have hcz : ∀ j d, d ∈ completedUpTo []
      (TaskGraph.execWavesAux G.tasks [] (G.tasks.map Task.task_id)) j ↔
      ∃ k w, k < j ∧ (TaskGraph.execWavesAux G.tasks []
        (G.tasks.map Task.task_id)).get? k = some w ∧ d ∈ w := by
    intro j d
    simp only [completedUpTo, List.nil_append]
    exact mem_flatten_take _ j d
  refine ⟨?_, ?_, ?_⟩
  · intro t ht
    rw [hWeq]
    rcases execWavesAux_complete G.tasks (G.tasks.map Task.task_id).length
      [] (G.tasks.map Task.task_id) hn hclosedR rank hrankR t.task_id
      (List.mem_map_of_mem _ ht) with ⟨i, w, hget, hin⟩
    exact ⟨i, ⟨w, hget, hin⟩,
      fun j w' hget' hin' => huniq j i w' w t.task_id hget' hget hin' hin⟩
  · intro A B _ hB hAB i j wA wB hgi hAi hgj hBj
    rw [hWeq] at hgi hgj
    have hd : A.task_id ∈ TaskGraph.depsOf G.tasks B.task_id := by
      rw [hdeps B hB]
      exact hAB
    have := hplace j wB B.task_id hgj hBj A.task_id hd
    rcases (hcz j A.task_id).mp this with ⟨k, w, hkj, hget, hAw⟩
    have : k = i := huniq k i w wA A.task_id hget hgi hAw hAi
    exact this ▸ hkj
  · intro A B C _ hB hC hBd hCd i j wB wC hgi hBi hgj hCj
    rw [hWeq] at hgi hgj
    have key : ∀ (T : Task), T ∈ G.tasks →
        (∀ d, d ∈ T.dependencies ↔ d = A.task_id) →
        ∀ i' w', (TaskGraph.execWavesAux G.tasks []
            (G.tasks.map Task.task_id)).get? i' = some w' →
          T.task_id ∈ w' →
          ∃ k wk, (TaskGraph.execWavesAux G.tasks []
            (G.tasks.map Task.task_id)).get? k = some wk ∧
            A.task_id ∈ wk ∧ i' = k + 1 := by
      intro T hT hTd i' w' hget hTin
      have hdT : A.task_id ∈ TaskGraph.depsOf G.tasks T.task_id := by
        rw [hdeps T hT]
        exact (hTd A.task_id).mpr rfl
      have hmem := hplace i' w' T.task_id hget hTin A.task_id hdT
      rcases (hcz i' A.task_id).mp hmem with ⟨k, wk, hki, hgetk, hAk⟩
      refine ⟨k, wk, hgetk, hAk, ?_⟩
      cases i' with
      | zero => cases hki
      | succ m =>
        have hkm : k ≤ m := Nat.lt_succ_iff.mp hki
        rcases Nat.lt_or_ge k m with hklt | hkge
        · exfalso
          rcases hgreedy m w' T.task_id hget hTin with ⟨d, hdd, hdnot⟩
          rw [hdeps T hT] at hdd
          rw [(hTd d).mp hdd] at hdnot
          exact hdnot ((hcz m A.task_id).mpr ⟨k, wk, hklt, hgetk, hAk⟩)
        · exact congrArg Nat.succ (Nat.le_antisymm hkm hkge).symm
    rcases key B hB hBd i wB hgi hBi with ⟨kB, wkB, hgetB, hAB', hiB⟩
    rcases key C hC hCd j wC hgj hCj with ⟨kC, wkC, hgetC, hAC', hjC⟩
    have : kB = kC := huniq kB kC wkB wkC A.task_id hgetB hgetC hAB' hAC'
    rw [hiB, hjC, this]

/-- Witness for C5 at a concrete acyclic graph: `B` and `C` depend exactly
on `A`, `D` depends on `B`; every task gets exactly one wave, dependencies
come strictly earlier, and `B` and `C` share a wave. -/
theorem C5_execution_waves_witness :
    ((waveDemoGraph.tasks.map Task.task_id).Nodup) ∧
    ((∀ t ∈ waveDemoGraph.tasks, ∃ i,
      (∃ w, waveDemoGraph.get_execution_order.get? i = some w ∧ t.task_id ∈ w) ∧
      ∀ j w', waveDemoGraph.get_execution_order.get? j = some w' →
        t.task_id ∈ w' → j = i) ∧
    (∀ A B, A ∈ waveDemoGraph.tasks → B ∈ waveDemoGraph.tasks →
      A.task_id ∈ B.dependencies →
      ∀ i j wA wB, waveDemoGraph.get_execution_order.get? i = some wA →
        A.task_id ∈ wA →
        waveDemoGraph.get_execution_order.get? j = some wB →
        B.task_id ∈ wB → i < j) ∧
    (∀ A B C, A ∈ waveDemoGraph.tasks → B ∈ waveDemoGraph.tasks →
      C ∈ waveDemoGraph.tasks →
      (∀ d, d ∈ B.dependencies ↔ d = A.task_id) →
      (∀ d, d ∈ C.dependencies ↔ d = A.task_id) →
      ∀ i j wB wC, waveDemoGraph.get_execution_order.get? i = some wB →
        B.task_id ∈ wB →
        waveDemoGraph.get_execution_order.get? j = some wC →
        C.task_id ∈ wC → i = j)) :=
  ⟨by decide,
   C5_execution_waves waveDemoGraph (by decide) (by decide) (by decide)
     (fun s => if s = "A" then 0 else if s = "D" then 2 else 1) (by decide)⟩
